import Mathlib

/-!
# bytemare/cryptotools: ciphersuite registry and group adapters

A shallow embedding of

* `group/ciphersuite/suites.go` (the `Identifier` registry),
* `group/ciphersuite/internal/hash2curve/curves.go` and `group.go`
  (curve descriptor table and hash-to-curve adapter),
* `group/ciphersuite/internal/ristretto/ristretto.go` (Ristretto adapter),

followed by the properties proved about them.

Conventions of the embedding:

* a Go `string` is a list of bytes, a Go `[]byte` an optional list of bytes
  (`none` is the nil slice);
* a Go pointer to an adapter is an address into a `Heap`; `&T{...}` allocates
  a fresh address and every function that may allocate passes the heap along;
* a function that may panic returns `Except Panic _`;
* a Go `(value, error)` result is a pair of options;
* imported libraries (h2c-go-ref, tozan-ecc, ristretto255, fmt) are reached
  through the fields of `Externals`.
-/

namespace Cryptotools

/-! ## Go values -/

/-- A Go `string`: an immutable sequence of bytes. -/
abbrev GoString := List UInt8

/-- A Go `[]byte`: `none` is the nil slice, `some []` an empty non-nil slice. -/
abbrev Bytes := Option (List UInt8)

/-- The bytes of a string literal of the source text (UTF-8). -/
def lit (s : String) : GoString := s.data.flatMap String.utf8EncodeChar

/-- The Go conversion `string(b)`; the nil slice converts to the empty string. -/
def stringOf (b : Bytes) : GoString := b.getD []

/-- The Go conversion `[]byte(s)`; the result is never nil. -/
def bytesOf (s : GoString) : Bytes := some s

/-- The Go builtin `len` on a byte slice; `len(nil)` is `0`. -/
def lenOf (b : Bytes) : Nat := (b.getD []).length

/-- An `internal.ParameterError`: an error that is a string. -/
structure ParameterError where
  msg : GoString
deriving DecidableEq

/-- Why a decoding failed: the input has the wrong length, or the primitive
library rejected it with a message. -/
inductive DecodeFailure
  | wrongLength
  | invalid (msg : GoString)
deriving DecidableEq

/-- The Go `error` values that occur. -/
inductive GoError
  /-- An `internal.ParameterError` of package `ciphersuite`. -/
  | parameter (e : ParameterError)
  /-- The sentinel `errParamNotRandomOracle` of package `hash2curve`
  (declared in a file outside the embedded files). -/
  | notRandomOracle
  /-- A decode-failure error. -/
  | decode (why : DecodeFailure)
  /-- An error value built by an imported library. -/
  | foreign (msg : GoString)
deriving DecidableEq

/-- What a Go `panic` carries. -/
inductive Panic
  /-- The call `panic(err)` with an error value. -/
  | error (e : GoError)
  /-- The runtime error of reading through a nil pointer. -/
  | nilDereference
  /-- A panic raised inside an imported library. -/
  | foreign (msg : GoString)
deriving DecidableEq

/-- An address of an allocated object. -/
abbrev Ptr := Nat

/-- The identifier of a hash-to-curve suite, `h2c.SuiteID`, a string type. -/
abbrev SuiteID := GoString

/-- Curve identifiers `C.ID` of h2c-go-ref named by the descriptor table. -/
inductive CurveID
  | P256 | P384 | P521 | Curve25519 | Edwards25519 | Curve448 | Edwards448 | SECP256K1
deriving DecidableEq

/-- The coordinate solvers named by the descriptor table (functions of package
`hash2curve` whose bodies are outside the embedded files); a solver is
identified by the function it is. -/
inductive solver
  | solveCurve25519 | solveEd25519Y | solveCurve448 | solveEd448 | solveKoblitz
deriving DecidableEq

/-- The operations of imported libraries, and of files outside the embedded
ones, that the embedded code calls. -/
structure Externals where
  /-- An `h2c.HashToPoint` engine. -/
  HashToPoint : Type
  /-- A `Curve.EllCurve` of tozan-ecc. -/
  EllCurve : Type
  /-- A `Curve.Point` of tozan-ecc. -/
  CurvePoint : Type
  /-- A field, `GF.Field`. -/
  Field : Type
  /-- A field element, `GF.Elt`. -/
  FieldElt : Type
  /-- A `ristretto255.Element`. -/
  RistElement : Type
  /-- A `ristretto255.Scalar`. -/
  RistScalar : Type
  /-- A `hash.Identifier`. -/
  HashIdentifier : Type
  /-- The constant `hash.SHA512`. -/
  SHA512 : HashIdentifier
  /-- The call `id.Get(dst)` on an `h2c.SuiteID`; a failure is the message of
  the error the library returns. -/
  suiteGet : SuiteID → Bytes → Except GoString HashToPoint
  /-- The call `h.IsRandomOracle()`. -/
  isRandomOracle : HashToPoint → Bool
  /-- The call `h.GetCurve()`. -/
  getCurve : HashToPoint → EllCurve
  /-- The call `h.Hash(input)`; here and below a failure is the message of a
  panic raised inside the library. -/
  hash : HashToPoint → Bytes → Except GoString CurvePoint
  /-- The call `h.GetHashToScalar().GetScalarField()`. -/
  scalarField : HashToPoint → Field
  /-- The call `h.GetHashToScalar().Hash(input)`. -/
  hashScalar : HashToPoint → Bytes → Except GoString FieldElt
  /-- The call `curve.Field().BitLen()`. -/
  fieldBitLen : EllCurve → Nat
  /-- The call `curve.Field().Elt(x)`. -/
  elt : EllCurve → GoString → Except GoString FieldElt
  /-- The call `curve.NewPoint(X, Y)`. -/
  newPoint : EllCurve → FieldElt → FieldElt → Except GoString CurvePoint
  /-- The value held by an empty scalar of a field. -/
  emptyElt : Field → FieldElt
  /-- The byte size of an encoded scalar of a field. -/
  scalarLen : Field → Nat
  /-- The primitive decoding of a scalar of a field; here and below a failure
  is the message of the error the library returns. -/
  scalarFromBytes : Field → List UInt8 → Except GoString FieldElt
  /-- The primitive decoding of a point of a curve. -/
  pointFromBytes : EllCurve → List UInt8 → Except GoString CurvePoint
  /-- The scalar multiplication of a curve point. -/
  scalarMult : CurvePoint → FieldElt → CurvePoint
  /-- The expansion of an input to `n` uniform bytes under a DST and a hash. -/
  expand : HashIdentifier → Bytes → Bytes → Nat → Bytes
  /-- The call `ristretto255.NewElement().FromUniformBytes(b)`. -/
  elementFromUniformBytes : Bytes → Except GoString RistElement
  /-- The call `ristretto255.NewScalar().FromUniformBytes(b)`. -/
  scalarFromUniformBytes : Bytes → Except GoString RistScalar
  /-- The call `ristretto255.NewScalar()`. -/
  ristNewScalar : RistScalar
  /-- The call `ristretto255.NewElement()`. -/
  ristNewElement : RistElement
  /-- The primitive decoding of a Ristretto scalar. -/
  ristScalarFromBytes : List UInt8 → Except GoString RistScalar
  /-- The primitive decoding of a Ristretto element. -/
  ristElementFromBytes : List UInt8 → Except GoString RistElement
  /-- The scalar multiplication of a Ristretto element. -/
  ristScalarMult : RistElement → RistScalar → RistElement
  /-- The text `fmt` prints in place of an operand whose `String` method
  panicked with the given value. -/
  panicText : Panic → GoString

/-! ## `hash2curve/curves.go` -/

namespace hash2curve

/-- The struct `curve`: a curve descriptor. -/
structure curve (X : Externals) where
  id : CurveID
  solver : Option solver
  base : X.CurvePoint

/-- The function `point`: the point of a curve with the given coordinates. -/
def point (X : Externals) (ec : X.EllCurve) (x y : GoString) : Except Panic X.CurvePoint :=
  match X.elt ec x with
  | .error msg => .error (.foreign msg)
  | .ok xe =>
    match X.elt ec y with
    | .error msg => .error (.foreign msg)
    | .ok ye =>
      match X.newPoint ec xe ye with
      | .error msg => .error (.foreign msg)
      | .ok p => .ok p

/-- The struct `params`: a row of the static parameter table. -/
structure params where
  id : CurveID
  solver : Option solver
  baseX : GoString
  baseY : GoString
deriving DecidableEq

/-- The method `(p *params) New`. -/
def params.New (X : Externals) (p : params) (ec : X.EllCurve) : Except Panic (curve X) :=
  match point X ec p.baseX p.baseY with
  | .error e => .error e
  | .ok base => .ok { id := p.id, solver := p.solver, base := base }

end hash2curve

/-! ### Suite identifiers exported by h2c-go-ref

The constants of type `SuiteID` that the sources name. Their values are the
suite names of the hash-to-curve draft; what follows uses only that they are
pairwise different, as the keys of a Go map literal must be. -/

namespace H2C

def P256_XMDSHA256_SSWU_RO_ : SuiteID := lit "P256_XMD:SHA-256_SSWU_RO_"
def P384_XMDSHA512_SSWU_RO_ : SuiteID := lit "P384_XMD:SHA-512_SSWU_RO_"
def P521_XMDSHA512_SSWU_RO_ : SuiteID := lit "P521_XMD:SHA-512_SSWU_RO_"
def Curve25519_XMDSHA512_ELL2_RO_ : SuiteID := lit "curve25519_XMD:SHA-512_ELL2_RO_"
def Edwards25519_XMDSHA512_ELL2_RO_ : SuiteID := lit "edwards25519_XMD:SHA-512_ELL2_RO_"
def Curve448_XMDSHA512_ELL2_RO_ : SuiteID := lit "curve448_XMD:SHA-512_ELL2_RO_"
def Edwards448_XMDSHA512_ELL2_RO_ : SuiteID := lit "edwards448_XMD:SHA-512_ELL2_RO_"
def Secp256k1_XMDSHA256_SSWU_RO_ : SuiteID := lit "secp256k1_XMD:SHA-256_SSWU_RO_"

end H2C

namespace hash2curve

/-- The rows of the map literal `curves`, in source order. -/
def curvesTable : List (SuiteID × params) :=
  [ (H2C.P256_XMDSHA256_SSWU_RO_,
      { id := .P256, solver := none,
        baseX := lit "0x6b17d1f2e12c4247f8bce6e563a440f277037d812deb33a0f4a13945d898c296",
        baseY := lit "0x4fe342e2fe1a7f9b8ee7eb4a7c0f9e162bce33576b315ececbb6406837bf51f5" }),
    (H2C.P384_XMDSHA512_SSWU_RO_,
      { id := .P384, solver := none,
        baseX := lit "0xaa87ca22be8b05378eb1c71ef320ad746e1d3b628ba79b9859f741e082542a385502f25dbf55296c3a545e3872760ab7",
        baseY := lit "0x3617de4a96262c6f5d9e98bf9292dc29f8f41dbd289a147ce9da3113b5f0b8c00a60b1ce1d7e819d7a431d7c90ea0e5f" }),
    (H2C.P521_XMDSHA512_SSWU_RO_,
      { id := .P521, solver := none,
        baseX := lit "0xc6858e06b70404e9cd9e3ecb662395b4429c648139053fb521f828af606b4d3dbaa14b5e77efe75928fe1dc127a2ffa8de3348b3c1856a429bf97e7e31c2e5bd66",
        baseY := lit "0x11839296a789a3bc0045c8a5fb42c7d1bd998f54449579b446817afbd17273e662c97ee72995ef42640c550b9013fad0761353c7086a272c24088be94769fd16650" }),
    (H2C.Curve25519_XMDSHA512_ELL2_RO_,
      { id := .Curve25519, solver := some .solveCurve25519,
        baseX := lit "0x9",
        baseY := lit "0x20ae19a1b8a086b4e01edd2c7748d14c923d4d7e6d7c61b229e9c5a27eced3d9" }),
    (H2C.Edwards25519_XMDSHA512_ELL2_RO_,
      { id := .Edwards25519, solver := some .solveEd25519Y,
        baseX := lit "0x216936D3CD6E53FEC0A4E231FDD6DC5C692CC7609525A7B2C9562D608F25D51A",
        baseY := lit "0x6666666666666666666666666666666666666666666666666666666666666658" }),
    (H2C.Curve448_XMDSHA512_ELL2_RO_,
      { id := .Curve448, solver := some .solveCurve448,
        baseX := lit "0x5",
        baseY := lit "0x7D235D1295F5B1F66C98AB6E58326FCECBAE5D34F55545D060F75DC28DF3F6EDB8027E2346430D211312C4B150677AF76FD7223D457B5B1A" }),
    (H2C.Edwards448_XMDSHA512_ELL2_RO_,
      { id := .Edwards448, solver := some .solveEd448,
        baseX := lit "0x297ea0ea2692ff1b4faff46098453a6a26adf733245f065c3c59d0709cecfa96147eaaf3932d94c63d96c170033f4ba0c7f0de840aed939f",
        baseY := lit "0x13" }),
    (H2C.Secp256k1_XMDSHA256_SSWU_RO_,
      { id := .SECP256K1, solver := some .solveKoblitz,
        baseX := lit "0x79be667ef9dcbbac55a06295ce870b07029bfcdb2dce28d959f2815b16f81798",
        baseY := lit "0x483ada7726a3c4655da4fbfc0e1108a8fd17b448a68554199c47d08ffb10d4b8" }) ]

/-- The map `curves`: the lookup `curves[id]`, `none` for the nil pointer
that a missing key yields. -/
def curves (id : SuiteID) : Option params :=
  curvesTable.lookup id

end hash2curve

/-! ## The adapters: data -/

namespace hash2curve

/-- The struct `Hash2Curve`. The embedded `*curve` is built once by
`params.New` and never written, it is kept by value. -/
structure Hash2Curve (X : Externals) where
  suite : SuiteID
  HashToPoint : X.HashToPoint
  curve : curve X
  dst : Bytes

/-- The struct `Scalar`, as built by `HashToScalar`. -/
structure Scalar (X : Externals) where
  s : X.FieldElt
  f : X.Field

/-- The struct `Point`, as built by `NewElement` and `HashToGroup`: the
address of the adapter it refers to and a curve point. -/
structure Point (X : Externals) where
  Hash2Curve : Ptr
  point : X.CurvePoint

end hash2curve

namespace ristretto

/-- Modelled from the spec: the struct `h2r.HashToRistretto` (package `h2r`
is outside the embedded files), "a hash-to-Ristretto helper bound to a DST and
a hash identifier". -/
structure HashToRistretto (X : Externals) where
  dst : Bytes
  identifier : X.HashIdentifier

/-- The struct `Ristretto`: the address of its helper. -/
structure Ristretto where
  h2r : Ptr
deriving DecidableEq

/-- The struct `Scalar`; its one field is the embedded `*ristretto255.Scalar`. -/
structure Scalar (X : Externals) where
  scalar : X.RistScalar

/-- The struct `Element`: the address of the helper it refers to and a group
element. -/
structure Element (X : Externals) where
  HashToRistretto : Ptr
  element : X.RistElement

end ristretto

/-- The allocated adapters and helpers; an address is a position in the list
of its type, and an allocation appends. -/
structure Heap (X : Externals) where
  h2c : List (hash2curve.Hash2Curve X)
  h2r : List (ristretto.HashToRistretto X)
  rist : List ristretto.Ristretto

/-- The heap with nothing allocated. -/
def Heap.empty (X : Externals) : Heap X := { h2c := [], h2r := [], rist := [] }

/-- Reading through a pointer; an address that was never allocated (the nil
pointer among them) panics. -/
def load {α : Type} (objs : List α) (p : Ptr) : Except Panic α :=
  match objs[p]? with
  | none => .error .nilDereference
  | some v => .ok v

/-! ## `hash2curve/group.go` -/

namespace hash2curve

/-- The function `New`. -/
def New (X : Externals) (σ : Heap X) (id : SuiteID) (dst : Bytes) :
    Except Panic (Ptr × Heap X) :=
  match X.suiteGet id dst with
  | .error msg => .error (.error (.foreign msg))
  | .ok h =>
    if X.isRandomOracle h = false then .error (.error .notRandomOracle)
    else
      match curves id with
      | none => .error .nilDereference
      | some p =>
        match p.New X (X.getCurve h) with
        | .error e => .error e
        | .ok c =>
          .ok (σ.h2c.length,
            { σ with h2c := σ.h2c ++ [{ suite := id, HashToPoint := h, curve := c, dst := dst }] })

/-- Modelled from the spec: the helper `scalar` (outside the embedded files),
which builds the "empty" scalar value of the correct field, ready to be filled
by `Decode`. -/
def scalar (X : Externals) (f : X.Field) : Scalar X :=
  { s := X.emptyElt f, f := f }

/-- The method `NewScalar`. -/
def NewScalar (X : Externals) (σ : Heap X) (h : Ptr) : Except Panic (Scalar X) :=
  match load σ.h2c h with
  | .error e => .error e
  | .ok hv => .ok (scalar X (X.scalarField hv.HashToPoint))

/-- Modelled from the spec: the helper `pointLen` (outside the embedded
files), "the minimum number of bytes to represent the field's bit length,
rounded up". -/
def pointLen (bitLen : Nat) : Nat := (bitLen + 7) / 8

/-- The method `ElementLength`. -/
def ElementLength (X : Externals) (σ : Heap X) (h : Ptr) : Except Panic Nat :=
  match load σ.h2c h with
  | .error e => .error e
  | .ok hv => .ok (pointLen (X.fieldBitLen (X.getCurve hv.HashToPoint)))

/-- The method `NewElement`. -/
def NewElement (X : Externals) (σ : Heap X) (h : Ptr) : Except Panic (Point X) :=
  match load σ.h2c h with
  | .error e => .error e
  | .ok hv => .ok { Hash2Curve := h, point := hv.curve.base }

/-- The method `checkDSTLen`: its body is commented out, it does nothing. -/
def checkDSTLen (X : Externals) (_σ : Heap X) (_h : Ptr) : Unit := ()

/-- The adapter `htp` chosen by `HashToGroup` and `HashToScalar`: the receiver
when `dst` is nil, `New(h.suite, dst)` otherwise. -/
def adapterFor (X : Externals) (σ : Heap X) (h : Ptr) (dst : Bytes) :
    Except Panic (Ptr × Heap X) :=
  match dst with
  | none => .ok (h, σ)
  | some _ =>
    match load σ.h2c h with
    | .error e => .error e
    | .ok hv => New X σ hv.suite dst

/-- The method `HashToGroup`. -/
def HashToGroup (X : Externals) (σ : Heap X) (h : Ptr) (input dst : Bytes) :
    Except Panic (Point X × Heap X) :=
  match adapterFor X σ h dst with
  | .error e => .error e
  | .ok (htp, σ1) =>
    let _ := checkDSTLen X σ1 htp
    match load σ1.h2c htp with
    | .error e => .error e
    | .ok hv =>
      match X.hash hv.HashToPoint input with
      | .error msg => .error (.foreign msg)
      | .ok pt => .ok ({ Hash2Curve := htp, point := pt }, σ1)

/-- The method `HashToScalar`. -/
def HashToScalar (X : Externals) (σ : Heap X) (h : Ptr) (input dst : Bytes) :
    Except Panic (Scalar X × Heap X) :=
  match adapterFor X σ h dst with
  | .error e => .error e
  | .ok (htp, σ1) =>
    let _ := checkDSTLen X σ1 htp
    match load σ1.h2c htp with
    | .error e => .error e
    | .ok hv =>
      match X.hashScalar hv.HashToPoint input with
      | .error msg => .error (.foreign msg)
      | .ok s => .ok ({ s := s, f := X.scalarField hv.HashToPoint }, σ1)

/-- The method `DST`. -/
def DST (X : Externals) (σ : Heap X) (h : Ptr) : Except Panic GoString :=
  match load σ.h2c h with
  | .error e => .error e
  | .ok hv => .ok (stringOf hv.dst)

/-- Modelled from the spec: the method `Scalar.Decode` (outside the embedded
files). A `Decode` operation returns "a decode-failure error (never abort)
when the input bytes are the wrong length or do not correspond to a valid
field/curve element"; the expected length is "the scalar field's byte size". -/
def Scalar.Decode (X : Externals) (s : Scalar X) (input : Bytes) : Except GoError (Scalar X) :=
  if lenOf input ≠ X.scalarLen s.f then .error (.decode .wrongLength)
  else
    match X.scalarFromBytes s.f (input.getD []) with
    | .error msg => .error (.decode (.invalid msg))
    | .ok v => .ok { s := v, f := s.f }

/-- Modelled from the spec: the method `Point.Decode` (outside the embedded
files). A `Decode` operation returns "a decode-failure error (never abort)
when the input bytes are the wrong length or do not correspond to a valid
field/curve element"; the expected length is `ElementLength()` of the adapter
the point refers to. -/
def Point.Decode (X : Externals) (σ : Heap X) (p : Point X) (input : Bytes) :
    Except Panic (Except GoError (Point X)) :=
  match load σ.h2c p.Hash2Curve with
  | .error e => .error e
  | .ok hv =>
    if lenOf input ≠ pointLen (X.fieldBitLen (X.getCurve hv.HashToPoint)) then
      .ok (.error (.decode .wrongLength))
    else
      match X.pointFromBytes (X.getCurve hv.HashToPoint) (input.getD []) with
      | .error msg => .ok (.error (.decode (.invalid msg)))
      | .ok q => .ok (.ok { Hash2Curve := p.Hash2Curve, point := q })

/-- Modelled from the spec: the method `Point.Mult` (outside the embedded
files), the scalar multiplication of the element by the scalar. -/
def Point.Mult (X : Externals) (p : Point X) (s : Scalar X) : Point X :=
  { Hash2Curve := p.Hash2Curve, point := X.scalarMult p.point s.s }

/-- The method `MultBytes`. -/
def MultBytes (X : Externals) (σ : Heap X) (h : Ptr) (scalar element : Bytes) :
    Except Panic (Option (Point X) × Option GoError) :=
  match NewScalar X σ h with
  | .error e => .error e
  | .ok s0 =>
    match Scalar.Decode X s0 scalar with
    | .error err => .ok (none, some err)
    | .ok s =>
      match NewElement X σ h with
      | .error e => .error e
      | .ok e0 =>
        match Point.Decode X σ e0 element with
        | .error e => .error e
        | .ok (.error err) => .ok (none, some err)
        | .ok (.ok e) => .ok (some (Point.Mult X e s), none)

end hash2curve

/-! ## `ristretto/ristretto.go` -/

namespace ristretto

/-- The constant `ristrettoInputLength`. -/
def ristrettoInputLength : Nat := 64

/-- Modelled from the spec: the constant `canonicalEncodingLength` (declared
outside the embedded files), "the fixed canonical encoding length (32 bytes)
for this group". -/
def canonicalEncodingLength : Nat := 32

namespace h2r

/-- Modelled from the spec: the function `h2r.New` (package `h2r` is outside
the embedded files); it builds a helper "bound to a DST and a hash
identifier". -/
def New (X : Externals) (σ : Heap X) (dst : Bytes) (identifier : X.HashIdentifier) :
    Ptr × Heap X :=
  (σ.h2r.length, { σ with h2r := σ.h2r ++ [{ dst := dst, identifier := identifier }] })

/-- Modelled from the spec: the method `Identifier` of the helper, the hash
identifier it is bound to. -/
def Identifier (X : Externals) (σ : Heap X) (h : Ptr) : Except Panic X.HashIdentifier :=
  match load σ.h2r h with
  | .error e => .error e
  | .ok hv => .ok hv.identifier

/-- Modelled from the spec: the method `GetOriginalDST` of the helper, "the
DST the instance was constructed with". -/
def GetOriginalDST (X : Externals) (σ : Heap X) (h : Ptr) : Except Panic GoString :=
  match load σ.h2r h with
  | .error e => .error e
  | .ok hv => .ok (stringOf hv.dst)

/-- Modelled from the spec: the method `Expand` of the helper, which expands
the input into the requested number of uniform bytes under the bound DST and
hash. -/
def Expand (X : Externals) (σ : Heap X) (h : Ptr) (input : Bytes) (length : Nat) :
    Except Panic Bytes :=
  match load σ.h2r h with
  | .error e => .error e
  | .ok hv => .ok (X.expand hv.identifier hv.dst input length)

end h2r

/-- The function `New`. -/
def New (X : Externals) (σ : Heap X) (hashID : X.HashIdentifier) (dst : Bytes) :
    Ptr × Heap X :=
  let (h, σ1) := h2r.New X σ dst hashID
  (σ1.rist.length, { σ1 with rist := σ1.rist ++ [{ h2r := h }] })

/-- The method `NewScalar`. -/
def NewScalar (X : Externals) : Scalar X := { scalar := X.ristNewScalar }

/-- The method `ElementLength`. -/
def ElementLength : Nat := canonicalEncodingLength

/-- The method `NewElement`. -/
def NewElement (X : Externals) (σ : Heap X) (r : Ptr) : Except Panic (Element X) :=
  match load σ.rist r with
  | .error e => .error e
  | .ok rv => .ok { HashToRistretto := rv.h2r, element := X.ristNewElement }

/-- The helper chosen by `HashToGroup` and `HashToScalar`: the bound one when
`dst` is nil, a new one bound to `dst` otherwise. -/
def helperFor (X : Externals) (σ : Heap X) (r : Ptr) (dst : Bytes) :
    Except Panic (Ptr × Heap X) :=
  match load σ.rist r with
  | .error e => .error e
  | .ok rv =>
    match dst with
    | none => .ok (rv.h2r, σ)
    | some _ =>
      match h2r.Identifier X σ rv.h2r with
      | .error e => .error e
      | .ok identifier => .ok (h2r.New X σ dst identifier)

/-- The method `HashToGroup`. -/
def HashToGroup (X : Externals) (σ : Heap X) (r : Ptr) (input dst : Bytes) :
    Except Panic (Element X × Heap X) :=
  match helperFor X σ r dst with
  | .error e => .error e
  | .ok (h, σ1) =>
    match h2r.Expand X σ1 h input ristrettoInputLength with
    | .error e => .error e
    | .ok uniform =>
      match X.elementFromUniformBytes uniform with
      | .error msg => .error (.foreign msg)
      | .ok el => .ok ({ HashToRistretto := h, element := el }, σ1)

/-- The method `HashToScalar`. -/
def HashToScalar (X : Externals) (σ : Heap X) (r : Ptr) (input dst : Bytes) :
    Except Panic (Scalar X × Heap X) :=
  match helperFor X σ r dst with
  | .error e => .error e
  | .ok (h, σ1) =>
    match h2r.Expand X σ1 h input ristrettoInputLength with
    | .error e => .error e
    | .ok hashed =>
      match X.scalarFromUniformBytes hashed with
      | .error msg => .error (.foreign msg)
      | .ok sc => .ok ({ scalar := sc }, σ1)

/-- Modelled from the spec: the method `Scalar.Decode` (outside the embedded
files). A `Decode` operation returns "a decode-failure error (never abort)
when the input bytes are the wrong length or do not correspond to a valid
field/curve element"; a Ristretto scalar is encoded on 32 bytes. -/
def Scalar.Decode (X : Externals) (_s : Scalar X) (input : Bytes) : Except GoError (Scalar X) :=
  if lenOf input ≠ canonicalEncodingLength then .error (.decode .wrongLength)
  else
    match X.ristScalarFromBytes (input.getD []) with
    | .error msg => .error (.decode (.invalid msg))
    | .ok v => .ok { scalar := v }

/-- Modelled from the spec: the method `Element.Decode` (outside the embedded
files). A `Decode` operation returns "a decode-failure error (never abort)
when the input bytes are the wrong length or do not correspond to a valid
field/curve element"; the expected length is `ElementLength()`. -/
def Element.Decode (X : Externals) (e : Element X) (input : Bytes) : Except GoError (Element X) :=
  if lenOf input ≠ ElementLength then .error (.decode .wrongLength)
  else
    match X.ristElementFromBytes (input.getD []) with
    | .error msg => .error (.decode (.invalid msg))
    | .ok v => .ok { HashToRistretto := e.HashToRistretto, element := v }

/-- Modelled from the spec: the method `Element.Mult` (outside the embedded
files), the scalar multiplication of the element by the scalar. -/
def Element.Mult (X : Externals) (e : Element X) (s : Scalar X) : Element X :=
  { HashToRistretto := e.HashToRistretto, element := X.ristScalarMult e.element s.scalar }

/-- The method `MultBytes`. -/
def MultBytes (X : Externals) (σ : Heap X) (r : Ptr) (s e : Bytes) :
    Except Panic (Option (Element X) × Option GoError) :=
  match Scalar.Decode X (NewScalar X) s with
  | .error err => .ok (none, some err)
  | .ok sc =>
    match NewElement X σ r with
    | .error p => .error p
    | .ok e0 =>
      match Element.Decode X e0 e with
      | .error err => .ok (none, some err)
      | .ok el => .ok (some (Element.Mult X el sc), none)

/-- The method `DST`. -/
def DST (X : Externals) (σ : Heap X) (r : Ptr) : Except Panic GoString :=
  match load σ.rist r with
  | .error e => .error e
  | .ok rv => h2r.GetOriginalDST X σ rv.h2r

end ristretto

/-! ## `ciphersuite/suites.go` -/

/-- A value of the interface `group.Group`: the address of one of the two
adapters. -/
inductive Group
  | ristretto (r : Ptr)
  | hash2curve (h : Ptr)
deriving DecidableEq

namespace ciphersuite

/-- The type `Identifier`, a byte. -/
abbrev Identifier := Fin 256

def Ristretto255Sha512 : Identifier := 1
def P256Sha256 : Identifier := 2
def P384Sha512 : Identifier := 3
def P521Sha512 : Identifier := 4
def Curve25519Sha512 : Identifier := 5
def Edwards25519Sha512 : Identifier := 6
def Curve448Sha512 : Identifier := 7
def Edwards448Sha512 : Identifier := 8
def Secp256k1Sha256 : Identifier := 9
def maxID : Identifier := 10
def Default : Identifier := Ristretto255Sha512

def errInvalidID : ParameterError := { msg := lit "invalid ciphersuite identifier" }
def errUnavailableID : ParameterError := { msg := lit "ciphersuite unavailable" }

/-- The type `newGroup`: a constructor of a group from a DST. -/
abbrev newGroup (X : Externals) := Heap X → Bytes → Except Panic (Group × Heap X)

/-- The struct `params`: a registration record. -/
structure params (X : Externals) where
  id : Identifier
  h2cID : SuiteID
  newGroup : newGroup X

/-- The type of the variable `registered`, a `map[Identifier]*params`; `none`
is the nil pointer that a missing key yields. -/
abbrev Registry (X : Externals) := Identifier → Option (params X)

/-- The method `Get`. -/
def Identifier.Get (X : Externals) (registered : Registry X) (σ : Heap X) (i : Identifier)
    (dst : Bytes) : Except Panic (Group × Heap X) :=
  if i = 0 ∨ i ≥ maxID then .error (.error (.parameter errInvalidID))
  else
    match registered i with
    | none => .error .nilDereference
    | some p => p.newGroup σ dst

/-- The method `Available`. -/
def Identifier.Available (X : Externals) (registered : Registry X) (i : Identifier) : Bool :=
  decide (i > 0) && decide (i < maxID) && (registered i).isSome

/-- The method `String`. -/
def Identifier.String (X : Externals) (registered : Registry X) (i : Identifier) :
    Except Panic GoString :=
  if i = 0 ∨ i ≥ maxID then .error (.error (.parameter errInvalidID))
  else
    match registered i with
    | none => .error .nilDereference
    | some p => .ok p.h2cID

/-- The text `fmt` prints under the verb `%s` for an operand of type
`Identifier`: the type has a `String` method, so `fmt` calls it and prints
what it returns (or, when the method panics, the recovered panic in its
place). -/
def verbS_Identifier (X : Externals) (registered : Registry X) (i : Identifier) : GoString :=
  match Identifier.String X registered i with
  | .ok s => s
  | .error e => X.panicText e

/-- The text `fmt` prints under the verb `%s` for an operand of type
`H2C.SuiteID`, a string type: the string itself. -/
def verbS_SuiteID (id : SuiteID) : GoString := id

/-- The text `fmt` prints under the verb `%s` for an operand of type
`string`: the string itself. -/
def verbS_string (s : GoString) : GoString := s

/-- The call `fmt.Sprintf(dstfmt, a, b, c, d)` for the constant
`dstfmt = "%s-V%s-CS%s-%s"`, given the texts printed for the four operands. -/
def Sprintf_dstfmt (a b c d : GoString) : GoString :=
  a ++ lit "-V" ++ b ++ lit "-CS" ++ c ++ lit "-" ++ d

/-- The method `MakeDST`. -/
def Identifier.MakeDST (X : Externals) (registered : Registry X) (i : Identifier)
    (app version : GoString) : Except Panic (Bytes × Option GoError) :=
  if i = 0 ∨ i ≥ maxID then .ok (none, some (.parameter errInvalidID))
  else if Identifier.Available X registered i = false then
    .ok (none, some (.parameter errUnavailableID))
  else
    match registered i with
    | none => .error .nilDereference
    | some p =>
      .ok (bytesOf (Sprintf_dstfmt (verbS_string app) (verbS_string version)
        (verbS_Identifier X registered p.id) (verbS_SuiteID p.h2cID)), none)

/-- The method `register`. -/
def Identifier.register (X : Externals) (registered : Registry X) (i : Identifier)
    (identifier : SuiteID) (g : newGroup X) : Registry X :=
  fun j => if j = i then some { id := i, h2cID := identifier, newGroup := g } else registered j

/-- The function `newRistretto`. -/
def newRistretto (X : Externals) (identifier : X.HashIdentifier) : newGroup X :=
  fun σ dst =>
    let (r, σ1) := ristretto.New X σ identifier dst
    .ok (.ristretto r, σ1)

/-- The function `newCurve`. -/
def newCurve (X : Externals) (id : SuiteID) : SuiteID × newGroup X :=
  (id, fun σ dst =>
    match hash2curve.New X σ id dst with
    | .error e => .error e
    | .ok (h, σ1) => .ok (.hash2curve h, σ1))

/-- The empty map made by `make(map[Identifier]*params)`. -/
def emptyRegistry (X : Externals) : Registry X := fun _ => none

/-- The call `i.register(newCurve(id))`. -/
def registerCurve (X : Externals) (registered : Registry X) (i : Identifier) (id : SuiteID) :
    Registry X :=
  Identifier.register X registered i (newCurve X id).1 (newCurve X id).2

/-- The function `init`: the value of `registered` once the package is
initialised. -/
def init (X : Externals) : Registry X :=
  let r0 := emptyRegistry X
  let r1 := Identifier.register X r0 Ristretto255Sha512 (lit "ristretto255_XMD:SHA-512_R255MAP_RO_")
    (newRistretto X X.SHA512)
  let r2 := registerCurve X r1 P256Sha256 H2C.P256_XMDSHA256_SSWU_RO_
  let r3 := registerCurve X r2 P384Sha512 H2C.P384_XMDSHA512_SSWU_RO_
  let r4 := registerCurve X r3 P521Sha512 H2C.P521_XMDSHA512_SSWU_RO_
  let r5 := registerCurve X r4 Curve25519Sha512 H2C.Curve25519_XMDSHA512_ELL2_RO_
  let r6 := registerCurve X r5 Edwards25519Sha512 H2C.Edwards25519_XMDSHA512_ELL2_RO_
  let r7 := registerCurve X r6 Curve448Sha512 H2C.Curve448_XMDSHA512_ELL2_RO_
  let r8 := registerCurve X r7 Edwards448Sha512 H2C.Edwards448_XMDSHA512_ELL2_RO_
  registerCurve X r8 Secp256k1Sha256 H2C.Secp256k1_XMDSHA256_SSWU_RO_

/-- The variable `registered` after initialisation. -/
def registered (X : Externals) : Registry X := init X

end ciphersuite

/-! ## An instance of the externals

A small instance on which the definitions above can be run: an engine is the
pair of its suite and its DST, curves and fields are named by their suite,
points, field elements and Ristretto values are byte strings. -/

/-- A small instance of `Externals`. -/
def sampleExternals : Externals where
  HashToPoint := SuiteID × Bytes
  EllCurve := SuiteID
  CurvePoint := List UInt8
  Field := SuiteID
  FieldElt := List UInt8
  RistElement := List UInt8
  RistScalar := List UInt8
  HashIdentifier := Nat
  SHA512 := 512
  suiteGet := fun id dst =>
    if (hash2curve.curves id).isSome then .ok (id, dst)
    else .error (lit "suite not supported")
  isRandomOracle := fun _ => true
  getCurve := fun h => h.1
  hash := fun h input => .ok (stringOf h.2 ++ stringOf input)
  scalarField := fun h => h.1
  hashScalar := fun h input => .ok (stringOf input ++ stringOf h.2)
  fieldBitLen := fun _ => 16
  elt := fun _ x => .ok x
  newPoint := fun _ x y => .ok (x.take 4 ++ y.take 4)
  emptyElt := fun _ => []
  scalarLen := fun _ => 2
  scalarFromBytes := fun _ b => if b = [0, 0] then .error (lit "zero scalar") else .ok b
  pointFromBytes := fun _ b => if b = [0, 0] then .error (lit "not on the curve") else .ok b
  scalarMult := fun p s => p ++ s
  expand := fun _ dst input n => some ((stringOf dst ++ stringOf input ++ List.replicate n 0).take n)
  elementFromUniformBytes := fun b =>
    if lenOf b = 64 then .ok (stringOf b) else .error (lit "wrong input size")
  scalarFromUniformBytes := fun b =>
    if lenOf b = 64 then .ok (stringOf b) else .error (lit "wrong input size")
  ristNewScalar := []
  ristNewElement := []
  ristScalarFromBytes := fun b => .ok b
  ristElementFromBytes := fun b => .ok b
  ristScalarMult := fun e s => e ++ s
  panicText := fun _ => lit "%!s(PANIC)"

/-- The sample externals with a hash-to-curve library that refuses every
suite: `id.Get(dst)` returns an error. -/
def refusingExternals : Externals :=
  { sampleExternals with suiteGet := fun _ _ => .error (lit "suite not supported") }

/-- The adapter that `hash2curve.New` builds over `sampleExternals` for the
suite of P-256 and the DST `first DST`. -/
def sampleAdapter : hash2curve.Hash2Curve sampleExternals :=
  { suite := H2C.P256_XMDSHA256_SSWU_RO_
    HashToPoint := (H2C.P256_XMDSHA256_SSWU_RO_, some (lit "first DST"))
    curve := { id := .P256, solver := none, base := lit "0x6b0x4f" }
    dst := some (lit "first DST") }

/-- The heap that holds `sampleAdapter` alone. -/
def sampleHeapH2C : Heap sampleExternals :=
  { h2c := [sampleAdapter], h2r := [], rist := [] }

/-- The heap that holds `sampleAdapter` and a Ristretto adapter, with its
helper, bound to the DST `first DST`. -/
def sampleHeap : Heap sampleExternals :=
  { h2c := [sampleAdapter]
    h2r := [{ dst := some (lit "first DST"), identifier := sampleExternals.SHA512 }]
    rist := [{ h2r := 0 }] }

/-! ## Frames -/

/-- Every object allocated in `σ` is found unchanged, at the same address, in
`τ`: no field of an adapter or helper of `σ` differs in `τ`. -/
def Heap.preserved {X : Externals} (σ τ : Heap X) : Prop :=
  (∀ (q : Ptr) (v : hash2curve.Hash2Curve X), σ.h2c[q]? = some v → τ.h2c[q]? = some v) ∧
  (∀ (q : Ptr) (v : ristretto.HashToRistretto X), σ.h2r[q]? = some v → τ.h2r[q]? = some v) ∧
  (∀ (q : Ptr) (v : ristretto.Ristretto), σ.rist[q]? = some v → τ.rist[q]? = some v)

/-! # Properties -/

/-! ## The registry -/

namespace ciphersuite

/-- An identifier that passes the range guard is one of the nine constants. -/
theorem inRange_cases (i : Identifier) (h : ¬ (i = 0 ∨ i ≥ maxID)) :
    i = Ristretto255Sha512 ∨ i = P256Sha256 ∨ i = P384Sha512 ∨ i = P521Sha512 ∨
    i = Curve25519Sha512 ∨ i = Edwards25519Sha512 ∨ i = Curve448Sha512 ∨
    i = Edwards448Sha512 ∨ i = Secp256k1Sha256 := by
  have h1 : ¬ ((i : Fin 256) = 0 ∨ (10 : Fin 256) ≤ i) := h
  show (i : Fin 256) = 1 ∨ i = 2 ∨ i = 3 ∨ i = 4 ∨ i = 5 ∨ i = 6 ∨ i = 7 ∨ i = 8 ∨ i = 9
  clear h
  revert i
  intro (i : Fin 256) h1
  rcases i with ⟨k, hk⟩
  simp only [Fin.ext_iff, Fin.le_def] at h1 ⊢
  simp at h1 ⊢
  omega

/-- The range guard `i == 0 || i >= maxID` is the negation of `0 < i < maxID`. -/
theorem invalid_iff (i : Identifier) : (i = 0 ∨ i ≥ maxID) ↔ ¬ (0 < i ∧ i < maxID) := by
  have e : ((i : Fin 256) = 0 ∨ (10 : Fin 256) ≤ i) ↔ ¬ ((0 : Fin 256) < i ∧ i < (10 : Fin 256)) := by
    rcases i with ⟨k, hk⟩
    simp only [Fin.ext_iff, Fin.le_def, Fin.lt_def]
    simp
    omega
  exact e

/-- In range, `Get` is the registered constructor applied to the DST. -/
theorem Get_registered (X : Externals) (reg : Registry X) (σ : Heap X) (i : Identifier) (dst : Bytes)
    (p : params X) (hi : ¬ (i = 0 ∨ i ≥ maxID)) (hp : reg i = some p) :
    Identifier.Get X reg σ i dst = p.newGroup σ dst := by
  simp only [Identifier.Get, if_neg hi, hp]

/-- Out of range, `Get` panics with `errInvalidID`. -/
theorem Get_invalid (X : Externals) (reg : Registry X) (σ : Heap X) (i : Identifier) (dst : Bytes)
    (hi : i = 0 ∨ i ≥ maxID) :
    Identifier.Get X reg σ i dst = .error (.error (.parameter errInvalidID)) := by
  simp only [Identifier.Get, if_pos hi]

/-- The function `point` panics only inside the curve library. -/
theorem point_error (X : Externals) (ec : X.EllCurve) (x y : GoString) (e : Panic)
    (h : hash2curve.point X ec x y = .error e) : ∃ msg, e = .foreign msg := by
  unfold hash2curve.point at h
  cases hx : X.elt ec x with
  | error m => simp only [hx] at h; exact ⟨m, by cases h; rfl⟩
  | ok xe =>
    simp only [hx] at h
    cases hy : X.elt ec y with
    | error m => simp only [hy] at h; exact ⟨m, by cases h; rfl⟩
    | ok ye =>
      simp only [hy] at h
      cases hp : X.newPoint ec xe ye with
      | error m => simp only [hp] at h; exact ⟨m, by cases h; rfl⟩
      | ok p => simp only [hp] at h; cases h

/-- The method `params.New` panics only inside the curve library. -/
theorem params_New_error (X : Externals) (p : hash2curve.params) (ec : X.EllCurve) (e : Panic)
    (h : hash2curve.params.New X p ec = .error e) : ∃ msg, e = .foreign msg := by
  unfold hash2curve.params.New at h
  cases hp : hash2curve.point X ec p.baseX p.baseY with
  | error e1 =>
    simp only [hp] at h
    cases h
    exact point_error X ec _ _ _ hp
  | ok b => simp only [hp] at h; cases h

/-- Every way `New` can panic. -/
theorem New_error (X : Externals) (σ : Heap X) (id : SuiteID) (dst : Bytes) (e : Panic)
    (h : hash2curve.New X σ id dst = .error e) :
    (∃ msg, e = .error (.foreign msg)) ∨ e = .error .notRandomOracle ∨ e = .nilDereference ∨
      ∃ msg, e = .foreign msg := by
  unfold hash2curve.New at h
  cases hg : X.suiteGet id dst with
  | error m => simp only [hg] at h; cases h; exact Or.inl ⟨m, rfl⟩
  | ok eng =>
    simp only [hg] at h
    by_cases hro : X.isRandomOracle eng = false
    · simp only [hro, if_true] at h; cases h; exact Or.inr (Or.inl rfl)
    · simp only [if_neg hro] at h
      cases hc : hash2curve.curves id with
      | none => simp only [hc] at h; cases h; exact Or.inr (Or.inr (Or.inl rfl))
      | some p =>
        simp only [hc] at h
        cases hn : hash2curve.params.New X p (X.getCurve eng) with
        | error e1 =>
          simp only [hn] at h
          cases h
          exact Or.inr (Or.inr (Or.inr (params_New_error X p _ _ hn)))
        | ok c => simp only [hn] at h; cases h

/-- The function `New` never panics with `errInvalidID`. -/
theorem New_ne_invalid (X : Externals) (σ : Heap X) (id : SuiteID) (dst : Bytes) :
    hash2curve.New X σ id dst ≠ .error (.error (.parameter errInvalidID)) := by
  intro h
  rcases New_error X σ id dst _ h with ⟨m, hm⟩ | hm | hm | ⟨m, hm⟩ <;> cases hm

/-- What `init` leaves in `registered` for an identifier in range. -/
theorem registered_some (X : Externals) (i : Identifier) (h : ¬ (i = 0 ∨ i ≥ maxID)) :
    ∃ p, registered X i = some p ∧ p.id = i ∧
      ((i = Ristretto255Sha512 ∧ p.h2cID = lit "ristretto255_XMD:SHA-512_R255MAP_RO_" ∧
          p.newGroup = newRistretto X X.SHA512) ∨
       (i ≠ Ristretto255Sha512 ∧ (hash2curve.curves p.h2cID).isSome = true ∧
          p.newGroup = (newCurve X p.h2cID).2)) := by
  rcases inRange_cases i h with h | h | h | h | h | h | h | h | h <;> subst h
  · exact ⟨_, rfl, rfl, Or.inl ⟨rfl, rfl, rfl⟩⟩
  all_goals exact ⟨_, rfl, rfl, Or.inr ⟨by decide, rfl, rfl⟩⟩

/-- Claim C2. `i.Get(dst)` panics with `errInvalidID` exactly when `i == 0` or
`i >= maxID`, in particular at `0` and at `maxID`; for every other `i` it is
the result of the constructor registered for `i` applied to `dst`, which is
`ristretto.New(hash.SHA512, dst)` for `Ristretto255Sha512` and
`hash2curve.New(tag, dst)`, for the registered tag, for the other suites. -/
theorem Get_errInvalidID_iff_and_constructor (X : Externals) (σ : Heap X) (i : Identifier) (dst : Bytes) :
    (Identifier.Get X (registered X) σ i dst = .error (.error (.parameter errInvalidID)) ↔
      (i = 0 ∨ i ≥ maxID)) ∧
    Identifier.Get X (registered X) σ 0 dst = .error (.error (.parameter errInvalidID)) ∧
    Identifier.Get X (registered X) σ maxID dst = .error (.error (.parameter errInvalidID)) ∧
    (¬ (i = 0 ∨ i ≥ maxID) →
      ∃ p, registered X i = some p ∧ Identifier.Get X (registered X) σ i dst = p.newGroup σ dst) ∧
    Identifier.Get X (registered X) σ Ristretto255Sha512 dst =
      .ok (.ristretto (ristretto.New X σ X.SHA512 dst).1, (ristretto.New X σ X.SHA512 dst).2) ∧
    (¬ (i = 0 ∨ i ≥ maxID) → i ≠ Ristretto255Sha512 →
      ∃ p, registered X i = some p ∧
        Identifier.Get X (registered X) σ i dst =
          (hash2curve.New X σ p.h2cID dst).map (fun r => (Group.hash2curve r.1, r.2))) := by
  have hsome : ¬ (i = 0 ∨ i ≥ maxID) → i ≠ Ristretto255Sha512 →
      ∃ p, registered X i = some p ∧
        Identifier.Get X (registered X) σ i dst =
          (hash2curve.New X σ p.h2cID dst).map (fun r => (Group.hash2curve r.1, r.2)) := by
    intro hi hne
    obtain ⟨p, hp, -, h | h⟩ := registered_some X i hi
    · exact absurd h.1 hne
    · refine ⟨p, hp, ?_⟩
      rw [Get_registered X _ σ i dst p hi hp, h.2.2]
      simp only [newCurve]
      cases hash2curve.New X σ p.h2cID dst <;> rfl
  refine ⟨⟨?_, Get_invalid X _ σ i dst⟩, rfl, rfl, ?_, rfl, hsome⟩
  · intro hget
    by_contra hi
    by_cases hne : i = Ristretto255Sha512
    · subst hne
      cases hget
    · obtain ⟨p, -, hp⟩ := hsome hi hne
      rw [hp] at hget
      cases hn : hash2curve.New X σ p.h2cID dst with
      | error e =>
        rw [hn] at hget
        have : e = .error (.parameter errInvalidID) := by
          simpa [Except.map] using hget
        exact New_ne_invalid X σ _ dst (this ▸ hn)
      | ok r => rw [hn] at hget; cases hget
  · intro hi
    obtain ⟨p, hp, -⟩ := registered_some X i hi
    exact ⟨p, hp, Get_registered X _ σ i dst p hi hp⟩

/-- Claim C3. `i.Available()` is true exactly when `0 < i < maxID` and the
registration table holds an entry for `i`; `Available(0)` and
`Available(maxID)` are false. -/
theorem Available_iff_in_range_and_registered (X : Externals) (registered : Registry X) (i : Identifier) :
    (Identifier.Available X registered i = true ↔
      (0 < i ∧ i < maxID ∧ ∃ p, registered i = some p)) ∧
    Identifier.Available X registered 0 = false ∧
    Identifier.Available X registered maxID = false := by
  refine ⟨?_, ?_, ?_⟩
  · simp [Identifier.Available, and_assoc, Option.isSome_iff_exists]
  · simp [Identifier.Available]
  · simp [Identifier.Available]

/-- Out of range, `MakeDST` returns `errInvalidID`. -/
theorem MakeDST_invalid (X : Externals) (reg : Registry X) (i : Identifier) (app version : GoString)
    (hi : i = 0 ∨ i ≥ maxID) :
    Identifier.MakeDST X reg i app version = .ok (none, some (.parameter errInvalidID)) := by
  simp only [Identifier.MakeDST, if_pos hi]

/-- An identifier in range with a registration is available. -/
theorem Available_of_some (X : Externals) (reg : Registry X) (i : Identifier) (p : params X)
    (hi : ¬ (i = 0 ∨ i ≥ maxID)) (hp : reg i = some p) : Identifier.Available X reg i = true := by
  have h := (invalid_iff i).not.1 hi
  simp only [not_not] at h
  simp [Identifier.Available, hp, h.1, h.2]

/-- In range without a registration, `MakeDST` returns `errUnavailableID`. -/
theorem MakeDST_unavailable (X : Externals) (reg : Registry X) (i : Identifier)
    (app version : GoString) (hi : ¬ (i = 0 ∨ i ≥ maxID)) (hp : reg i = none) :
    Identifier.MakeDST X reg i app version = .ok (none, some (.parameter errUnavailableID)) := by
  have ha : Identifier.Available X reg i = false := by simp [Identifier.Available, hp]
  simp only [Identifier.MakeDST, if_neg hi, ha, if_true]

/-- In range with a registration, `MakeDST` returns the formatted tag. -/
theorem MakeDST_registered (X : Externals) (reg : Registry X) (i : Identifier)
    (app version : GoString) (p : params X) (hi : ¬ (i = 0 ∨ i ≥ maxID)) (hp : reg i = some p) :
    Identifier.MakeDST X reg i app version =
      .ok (some (Sprintf_dstfmt app version (verbS_Identifier X reg p.id) p.h2cID), none) := by
  have ha : Identifier.Available X reg i = true := Available_of_some X reg i p hi hp
  simp [Identifier.MakeDST, if_neg hi, ha, hp, bytesOf, verbS_string, verbS_SuiteID]

/-- In range, `Get` on the initialised registry never panics with
`errInvalidID`: no registered constructor raises that value. -/
theorem Get_in_range_ne_invalid (X : Externals) (σ : Heap X) (i : Identifier) (dst : Bytes)
    (hi : ¬ (i = 0 ∨ i ≥ maxID)) :
    Identifier.Get X (registered X) σ i dst ≠ .error (.error (.parameter errInvalidID)) := by
  obtain ⟨p, hp, -, h | h⟩ := registered_some X i hi
  · rw [Get_registered X _ σ i dst p hi hp, h.2.2]
    simp [newRistretto]
  · rw [Get_registered X _ σ i dst p hi hp, h.2.2]
    simp only [newCurve]
    cases hn : hash2curve.New X σ p.h2cID dst with
    | error e =>
      simp only
      intro he
      cases he
      exact New_ne_invalid X σ _ dst hn
    | ok r => simp

/-- Claim C4, as amended. `i.MakeDST(app, version)` returns
`(nil, errInvalidID)` exactly when `i == 0` or `i >= maxID`,
`(nil, errUnavailableID)` exactly when `i` is in range without a registration,
and non-nil bytes with a nil error exactly in the remaining case; it never
panics. Whenever it returns an error `Get` does not return a group (it panics
with `errInvalidID`, or on the nil registration), and whenever it succeeds
`Get` is the outcome of the registered constructor. On the initialised
registry it returns an error exactly when `Get` panics with `errInvalidID`. -/
theorem MakeDST_error_cases (X : Externals) (reg : Registry X) (σ : Heap X) (i : Identifier)
    (app version : GoString) (dst : Bytes) :
    (Identifier.MakeDST X reg i app version = .ok (none, some (.parameter errInvalidID)) ↔
      (i = 0 ∨ i ≥ maxID)) ∧
    (Identifier.MakeDST X reg i app version =
        .ok (none, some (.parameter errUnavailableID)) ↔
      (0 < i ∧ i < maxID ∧ reg i = none)) ∧
    ((∃ b, Identifier.MakeDST X reg i app version = .ok (some b, none)) ↔
      (0 < i ∧ i < maxID ∧ ∃ p, reg i = some p)) ∧
    (∃ r, Identifier.MakeDST X reg i app version = .ok r) ∧
    ((∃ e, Identifier.MakeDST X reg i app version = .ok (none, some e)) →
      ∀ g, Identifier.Get X reg σ i dst ≠ .ok g) ∧
    ((∃ e, Identifier.MakeDST X reg i app version = .ok (none, some e)) ↔
      ((i = 0 ∨ i ≥ maxID) ∧
          Identifier.Get X reg σ i dst = .error (.error (.parameter errInvalidID))) ∨
        (0 < i ∧ i < maxID ∧ reg i = none ∧
          Identifier.Get X reg σ i dst = .error .nilDereference)) ∧
    ((∃ b, Identifier.MakeDST X reg i app version = .ok (some b, none)) ↔
      ∃ p, 0 < i ∧ i < maxID ∧ reg i = some p ∧
        Identifier.Get X reg σ i dst = p.newGroup σ dst) ∧
    ((∃ e, Identifier.MakeDST X (registered X) i app version = .ok (none, some e)) ↔
      Identifier.Get X (registered X) σ i dst = .error (.error (.parameter errInvalidID))) := by
  have hne : errInvalidID ≠ errUnavailableID := by decide
  have hinit : (∃ e, Identifier.MakeDST X (registered X) i app version = .ok (none, some e)) ↔
      Identifier.Get X (registered X) σ i dst = .error (.error (.parameter errInvalidID)) := by
    by_cases hi : i = 0 ∨ i ≥ maxID
    · rw [MakeDST_invalid X _ i app version hi, Get_invalid X _ σ i dst hi]
      simp
    · obtain ⟨p, hp, -⟩ := registered_some X i hi
      rw [MakeDST_registered X _ i app version p hi hp]
      have := Get_in_range_ne_invalid X σ i dst hi
      simp [this]
  by_cases hi : i = 0 ∨ i ≥ maxID
  · have hm := MakeDST_invalid X reg i app version hi
    have hg := Get_invalid X reg σ i dst hi
    have hr := (invalid_iff i).1 hi
    rw [hm, hg] at *
    refine ⟨by simp [hi], ?_, ?_, ⟨_, rfl⟩, by simp, by simp [hi], ?_, hinit⟩
    · constructor
      · intro h; simp at h; exact absurd h hne
      · intro h; exact absurd ⟨h.1, h.2.1⟩ hr
    · constructor
      · intro ⟨b, h⟩; simp at h
      · intro h; exact absurd ⟨h.1, h.2.1⟩ hr
    · constructor
      · intro ⟨b, h⟩; simp at h
      · intro ⟨p, h0, h1, _⟩; exact absurd ⟨h0, h1⟩ hr
  · have hr := (invalid_iff i).not.1 hi
    simp only [not_not] at hr
    cases hp : reg i with
    | none =>
      have hm := MakeDST_unavailable X reg i app version hi hp
      have hg : Identifier.Get X reg σ i dst = .error .nilDereference := by
        simp only [Identifier.Get, if_neg hi, hp]
      rw [hm, hg]
      refine ⟨?_, by simp [hr.1, hr.2], by simp, ⟨_, rfl⟩, by simp, by simp [hr.1, hr.2],
        by simp, hinit⟩
      constructor
      · intro h; simp at h; exact absurd h.symm hne
      · intro h; exact absurd h hi
    | some p =>
      have hm := MakeDST_registered X reg i app version p hi hp
      have hg := Get_registered X reg σ i dst p hi hp
      rw [hm, hg]
      refine ⟨by simp [hi], by simp, by simp [hr.1, hr.2], ⟨_, rfl⟩, by simp, by simp [hi],
        by simp [hr.1, hr.2], hinit⟩

/-- Claim C4 refuted as stated: over a hash-to-curve library that refuses the
suite, `P256Sha256.Get(dst)` panics inside `hash2curve.New` with the error of
the library, so it returns no group, while `P256Sha256.MakeDST("proto", "01")`
returns bytes and a nil error: the two do not fail under the same
conditions. -/
theorem MakeDST_succeeds_where_Get_panics :
    Identifier.Get refusingExternals (registered refusingExternals)
        (Heap.empty refusingExternals) P256Sha256 (some (lit "dst")) =
      .error (.error (.foreign (lit "suite not supported"))) ∧
    Identifier.MakeDST refusingExternals (registered refusingExternals) P256Sha256
        (lit "proto") (lit "01") =
      .ok (some (lit "proto-V01-CSP256_XMD:SHA-256_SSWU_RO_-P256_XMD:SHA-256_SSWU_RO_"), none) ∧
    ¬ ((∃ e, Identifier.MakeDST refusingExternals (registered refusingExternals) P256Sha256
          (lit "proto") (lit "01") = .ok (none, some e)) ↔
        ¬ ∃ g, Identifier.Get refusingExternals (registered refusingExternals)
          (Heap.empty refusingExternals) P256Sha256 (some (lit "dst")) = .ok g) := by
  have hg : Identifier.Get refusingExternals (registered refusingExternals)
        (Heap.empty refusingExternals) P256Sha256 (some (lit "dst")) =
      .error (.error (.foreign (lit "suite not supported"))) := rfl
  have hm : Identifier.MakeDST refusingExternals (registered refusingExternals) P256Sha256
        (lit "proto") (lit "01") =
      .ok (some (lit "proto-V01-CSP256_XMD:SHA-256_SSWU_RO_-P256_XMD:SHA-256_SSWU_RO_"), none) :=
    rfl
  refine ⟨hg, hm, ?_⟩
  rw [hg, hm]
  simp

/-- In range with a registration, `String` returns the registered tag. -/
theorem String_registered (X : Externals) (reg : Registry X) (i : Identifier) (p : params X)
    (hi : ¬ (i = 0 ∨ i ≥ maxID)) (hp : reg i = some p) :
    Identifier.String X reg i = .ok p.h2cID := by
  simp only [Identifier.String, if_neg hi, hp]

/-- Claim C5. For `0 < i < maxID`, `i.String()` returns the hash-to-curve tag
`i` was registered with (after `register(i, tag, g)` it is `tag`; after `init`
it is the tag listed for each of the nine identifiers, for
`Ristretto255Sha512` the string `ristretto255_XMD:SHA-512_R255MAP_RO_`), and
for `i == 0` or `i >= maxID` it panics with `errInvalidID`. -/
theorem String_returns_registered_tag (X : Externals) :
    (∀ i : Identifier, 0 < i → i < maxID →
      ∃ p, registered X i = some p ∧ Identifier.String X (registered X) i = .ok p.h2cID) ∧
    (∀ (reg : Registry X) (i : Identifier) (tag : SuiteID) (g : newGroup X), 0 < i → i < maxID →
      Identifier.String X (Identifier.register X reg i tag g) i = .ok tag) ∧
    Identifier.String X (registered X) Ristretto255Sha512 =
      .ok (lit "ristretto255_XMD:SHA-512_R255MAP_RO_") ∧
    Identifier.String X (registered X) P256Sha256 = .ok H2C.P256_XMDSHA256_SSWU_RO_ ∧
    Identifier.String X (registered X) P384Sha512 = .ok H2C.P384_XMDSHA512_SSWU_RO_ ∧
    Identifier.String X (registered X) P521Sha512 = .ok H2C.P521_XMDSHA512_SSWU_RO_ ∧
    Identifier.String X (registered X) Curve25519Sha512 = .ok H2C.Curve25519_XMDSHA512_ELL2_RO_ ∧
    Identifier.String X (registered X) Edwards25519Sha512 =
      .ok H2C.Edwards25519_XMDSHA512_ELL2_RO_ ∧
    Identifier.String X (registered X) Curve448Sha512 = .ok H2C.Curve448_XMDSHA512_ELL2_RO_ ∧
    Identifier.String X (registered X) Edwards448Sha512 = .ok H2C.Edwards448_XMDSHA512_ELL2_RO_ ∧
    Identifier.String X (registered X) Secp256k1Sha256 = .ok H2C.Secp256k1_XMDSHA256_SSWU_RO_ ∧
    (∀ (reg : Registry X) (i : Identifier), (i = 0 ∨ i ≥ maxID) →
      Identifier.String X reg i = .error (.error (.parameter errInvalidID))) := by
  refine ⟨?_, ?_, rfl, rfl, rfl, rfl, rfl, rfl, rfl, rfl, rfl, ?_⟩
  · intro i h0 h1
    have hi : ¬ (i = 0 ∨ i ≥ maxID) := fun h => (invalid_iff i).1 h ⟨h0, h1⟩
    obtain ⟨p, hp, -⟩ := registered_some X i hi
    exact ⟨p, hp, String_registered X _ i p hi hp⟩
  · intro reg i tag g h0 h1
    have hi : ¬ (i = 0 ∨ i ≥ maxID) := fun h => (invalid_iff i).1 h ⟨h0, h1⟩
    exact String_registered X _ i { id := i, h2cID := tag, newGroup := g } hi
      (by simp [Identifier.register])
  · intro reg i hi
    simp only [Identifier.String, if_pos hi]

/-- Claim C1, evaluated on the code. `Ristretto255Sha512.MakeDST("proto", "01")`
returns `proto-V01-CS<tag>-<tag>` for the tag
`ristretto255_XMD:SHA-512_R255MAP_RO_`, not `proto-V01-CS1-<tag>`: under the
verb `%s` the operand `p.id` is printed through its `String` method, which
returns the hash-to-curve tag. The same holds for every identifier in range:
the text after `-CS` is the tag, not the number of the identifier. -/
theorem MakeDST_prints_tag_for_suite_id (X : Externals) :
    Identifier.MakeDST X (registered X) Ristretto255Sha512 (lit "proto") (lit "01") =
      .ok (some (lit
        "proto-V01-CSristretto255_XMD:SHA-512_R255MAP_RO_-ristretto255_XMD:SHA-512_R255MAP_RO_"), none) ∧
    Identifier.MakeDST X (registered X) Ristretto255Sha512 (lit "proto") (lit "01") ≠
      .ok (some (lit "proto-V01-CS1-ristretto255_XMD:SHA-512_R255MAP_RO_"), none) ∧
    (∀ (i : Identifier) (app version : GoString), 0 < i → i < maxID →
      ∃ p, registered X i = some p ∧
        Identifier.MakeDST X (registered X) i app version =
          .ok (some (app ++ lit "-V" ++ version ++ lit "-CS" ++ p.h2cID ++ lit "-" ++ p.h2cID),
            none)) := by
  have h1 : Identifier.MakeDST X (registered X) Ristretto255Sha512 (lit "proto") (lit "01") =
      .ok (some (lit
        "proto-V01-CSristretto255_XMD:SHA-512_R255MAP_RO_-ristretto255_XMD:SHA-512_R255MAP_RO_"), none) := rfl
  refine ⟨h1, ?_, ?_⟩
  · rw [h1]
    intro h
    have h2 := Except.ok.inj h
    have h3 : lit
        "proto-V01-CSristretto255_XMD:SHA-512_R255MAP_RO_-ristretto255_XMD:SHA-512_R255MAP_RO_" =
        lit "proto-V01-CS1-ristretto255_XMD:SHA-512_R255MAP_RO_" := by
      simpa using h2
    revert h3
    decide
  · intro i app version h0 h1
    have hi : ¬ (i = 0 ∨ i ≥ maxID) := fun h => (invalid_iff i).1 h ⟨h0, h1⟩
    obtain ⟨p, hp, hid, -⟩ := registered_some X i hi
    refine ⟨p, hp, ?_⟩
    rw [MakeDST_registered X _ i app version p hi hp]
    simp only [verbS_Identifier, hid, String_registered X _ i p hi hp, Sprintf_dstfmt]
/-- The function `New` reads through a nil pointer only when `curves` has no
entry for the suite. -/
theorem New_nilDereference (X : Externals) (σ : Heap X) (id : SuiteID) (dst : Bytes)
    (h : hash2curve.New X σ id dst = .error .nilDereference) : hash2curve.curves id = none := by
  unfold hash2curve.New at h
  cases hg : X.suiteGet id dst with
  | error m => simp only [hg] at h; cases h
  | ok eng =>
    simp only [hg] at h
    by_cases hro : X.isRandomOracle eng = false
    · simp only [hro, if_true] at h; cases h
    · simp only [if_neg hro] at h
      cases hc : hash2curve.curves id with
      | none => rfl
      | some p =>
        simp only [hc] at h
        cases hn : hash2curve.params.New X p (X.getCurve eng) with
        | error e1 =>
          simp only [hn] at h
          obtain ⟨m, rfl⟩ := params_New_error X p _ _ hn
          cases h
        | ok c => simp only [hn] at h; cases h

/-- Claim C10. After `init`, `maxID` is 10 and the identifiers in range are
exactly the nine constants `Ristretto255Sha512` to `Secp256k1Sha256`; each has
a registration; every tag registered through `newCurve` has an entry in
`curves`; hence every identifier in range is available, `MakeDST` never
returns `errUnavailableID`, and `MakeDST`, `String` and `Get` never read a
missing entry (never panic on a nil pointer). -/
theorem init_registers_every_identifier_in_range (X : Externals) :
    maxID = 10 ∧
    (∀ i : Identifier, (0 < i ∧ i < maxID) ↔
      (i = Ristretto255Sha512 ∨ i = P256Sha256 ∨ i = P384Sha512 ∨ i = P521Sha512 ∨
        i = Curve25519Sha512 ∨ i = Edwards25519Sha512 ∨ i = Curve448Sha512 ∨
        i = Edwards448Sha512 ∨ i = Secp256k1Sha256)) ∧
    (∀ i : Identifier, 0 < i → i < maxID → ∃ p, registered X i = some p) ∧
    (∀ (i : Identifier) (p : params X), 0 < i → i < maxID → i ≠ Ristretto255Sha512 →
      registered X i = some p →
        p.newGroup = (newCurve X p.h2cID).2 ∧ ∃ q, hash2curve.curves p.h2cID = some q) ∧
    (∀ i : Identifier, 0 < i → i < maxID → Identifier.Available X (registered X) i = true) ∧
    (∀ (i : Identifier) (app version : GoString),
      Identifier.MakeDST X (registered X) i app version ≠
        .ok (none, some (.parameter errUnavailableID))) ∧
    (∀ (i : Identifier) (app version : GoString),
      Identifier.MakeDST X (registered X) i app version ≠ .error .nilDereference) ∧
    (∀ i : Identifier, Identifier.String X (registered X) i ≠ .error .nilDereference) ∧
    (∀ (i : Identifier) (σ : Heap X) (dst : Bytes),
      Identifier.Get X (registered X) σ i dst ≠ .error .nilDereference) := by
  have hne : errInvalidID ≠ errUnavailableID := by decide
  have hin : ∀ i : Identifier, 0 < i → i < maxID → ¬ (i = 0 ∨ i ≥ maxID) :=
    fun i h0 h1 h => (invalid_iff i).1 h ⟨h0, h1⟩
  refine ⟨rfl, ?_, ?_, ?_, ?_, ?_, ?_, ?_, ?_⟩
  · intro i
    constructor
    · intro h
      exact inRange_cases i (hin i h.1 h.2)
    · intro h
      rcases h with h | h | h | h | h | h | h | h | h <;> subst h <;> decide
  · intro i h0 h1
    obtain ⟨p, hp, -⟩ := registered_some X i (hin i h0 h1)
    exact ⟨p, hp⟩
  · intro i p h0 h1 hne1 hp
    obtain ⟨q, hq, -, h | h⟩ := registered_some X i (hin i h0 h1)
    · exact absurd h.1 hne1
    · rw [hq] at hp
      cases hp
      exact ⟨h.2.2, Option.isSome_iff_exists.1 h.2.1⟩
  · intro i h0 h1
    obtain ⟨p, hp, -⟩ := registered_some X i (hin i h0 h1)
    exact Available_of_some X _ i p (hin i h0 h1) hp
  · intro i app version
    by_cases hi : i = 0 ∨ i ≥ maxID
    · rw [MakeDST_invalid X _ i app version hi]
      intro h
      simp at h
      exact hne h
    · obtain ⟨p, hp, -⟩ := registered_some X i hi
      rw [MakeDST_registered X _ i app version p hi hp]
      simp
  · intro i app version
    by_cases hi : i = 0 ∨ i ≥ maxID
    · rw [MakeDST_invalid X _ i app version hi]
      simp
    · obtain ⟨p, hp, -⟩ := registered_some X i hi
      rw [MakeDST_registered X _ i app version p hi hp]
      simp
  · intro i
    by_cases hi : i = 0 ∨ i ≥ maxID
    · simp [Identifier.String, if_pos hi]
    · obtain ⟨p, hp, -⟩ := registered_some X i hi
      simp [Identifier.String, if_neg hi, hp]
  · intro i σ dst
    by_cases hi : i = 0 ∨ i ≥ maxID
    · rw [Get_invalid X _ σ i dst hi]
      simp
    · obtain ⟨p, hp, -, h | h⟩ := registered_some X i hi
      · rw [Get_registered X _ σ i dst p hi hp, h.2.2]
        simp [newRistretto]
      · rw [Get_registered X _ σ i dst p hi hp, h.2.2]
        simp only [newCurve]
        cases hn : hash2curve.New X σ p.h2cID dst with
        | error e =>
          simp only
          intro he
          cases he
          have := New_nilDereference X σ _ dst hn
          rw [this] at h
          simp at h
        | ok r => simp

end ciphersuite

/-! ## The heap -/

/-- The relation `Heap.preserved` is reflexive. -/
theorem preserved_refl {X : Externals} (σ : Heap X) : Heap.preserved σ σ :=
  ⟨fun _ _ h => h, fun _ _ h => h, fun _ _ h => h⟩

/-- The relation `Heap.preserved` is transitive. -/
theorem preserved_trans {X : Externals} (σ τ υ : Heap X) (h1 : Heap.preserved σ τ)
    (h2 : Heap.preserved τ υ) : Heap.preserved σ υ :=
  ⟨fun q v h => h2.1 q v (h1.1 q v h), fun q v h => h2.2.1 q v (h1.2.1 q v h),
    fun q v h => h2.2.2 q v (h1.2.2 q v h)⟩

/-- Reading through an allocated address returns the object stored there. -/
theorem load_of_get {α : Type} (objs : List α) (p : Ptr) (v : α) (h : objs[p]? = some v) :
    load objs p = .ok v := by
  simp [load, h]

/-- An allocation leaves the objects already allocated where they are. -/
theorem get_append_of_some {α : Type} (objs more : List α) (p : Ptr) (v : α)
    (h : objs[p]? = some v) : (objs ++ more)[p]? = some v := by
  have hlt : p < objs.length := by
    by_contra hge
    rw [List.getElem?_eq_none (Nat.le_of_not_lt hge)] at h
    cases h
  rw [List.getElem?_append_left hlt]
  exact h

/-! ## The curve descriptor table -/

namespace hash2curve

/-- A successful lookup in `curves` returns a row of the table. -/
theorem curves_mem (id : SuiteID) (p : params) (h : curves id = some p) :
    (id, p) ∈ curvesTable := by
  unfold curves at h
  obtain ⟨l₁, l₂, hl, -⟩ := List.lookup_eq_some_iff.1 h
  rw [hl]
  simp

/-- Claim C9. In the table `curves` an entry has a nil solver exactly when its
curve is P-256, P-384 or P-521; the other five entries carry the solvers
`solveCurve25519`, `solveEd25519Y`, `solveCurve448`, `solveEd448` and
`solveKoblitz`, one each and all different; and `params.New` keeps the curve
id and the solver of the entry and takes the base point from
`point(ec, baseX, baseY)`. -/
theorem curves_solver_nil_iff_nist (X : Externals) :
    (∀ (id : SuiteID) (p : params), curves id = some p →
      (p.solver = none ↔ (p.id = .P256 ∨ p.id = .P384 ∨ p.id = .P521))) ∧
    curvesTable.map (fun e => (e.1, e.2.id, e.2.solver)) =
      [ (H2C.P256_XMDSHA256_SSWU_RO_, .P256, none),
        (H2C.P384_XMDSHA512_SSWU_RO_, .P384, none),
        (H2C.P521_XMDSHA512_SSWU_RO_, .P521, none),
        (H2C.Curve25519_XMDSHA512_ELL2_RO_, .Curve25519, some .solveCurve25519),
        (H2C.Edwards25519_XMDSHA512_ELL2_RO_, .Edwards25519, some .solveEd25519Y),
        (H2C.Curve448_XMDSHA512_ELL2_RO_, .Curve448, some .solveCurve448),
        (H2C.Edwards448_XMDSHA512_ELL2_RO_, .Edwards448, some .solveEd448),
        (H2C.Secp256k1_XMDSHA256_SSWU_RO_, .SECP256K1, some .solveKoblitz) ] ∧
    (∀ e ∈ curvesTable, curves e.1 = some e.2) ∧
    (curvesTable.filterMap (fun e => e.2.solver)).Nodup ∧
    (∀ (p : params) (ec : X.EllCurve),
      params.New X p ec =
        (point X ec p.baseX p.baseY).map
          (fun b => { id := p.id, solver := p.solver, base := b })) ∧
    (∀ (p : params) (ec : X.EllCurve) (c : curve X), params.New X p ec = .ok c →
      c.id = p.id ∧ c.solver = p.solver ∧ point X ec p.baseX p.baseY = .ok c.base) := by
  refine ⟨?_, rfl, by decide, by decide, ?_, ?_⟩
  · intro id p h
    have hm := curves_mem id p h
    have hall : ∀ e ∈ curvesTable,
        (e.2.solver = none ↔ (e.2.id = .P256 ∨ e.2.id = .P384 ∨ e.2.id = .P521)) := by
      decide
    exact hall _ hm
  · intro p ec
    unfold params.New
    cases point X ec p.baseX p.baseY <;> rfl
  · intro p ec c h
    unfold params.New at h
    cases hp : point X ec p.baseX p.baseY with
    | error e => simp only [hp] at h; cases h
    | ok b =>
      simp only [hp] at h
      cases h
      exact ⟨rfl, rfl, rfl⟩

/-! ## The hash-to-curve adapter -/

/-- What a successful `New` built and where it put it. -/
theorem New_ok (X : Externals) (σ σ1 : Heap X) (id : SuiteID) (dst : Bytes) (h : Ptr)
    (hn : New X σ id dst = .ok (h, σ1)) :
    ∃ eng c, X.suiteGet id dst = .ok eng ∧ h = σ.h2c.length ∧
      σ1 = { σ with
        h2c := σ.h2c ++ [{ suite := id, HashToPoint := eng, curve := c, dst := dst }] } := by
  unfold New at hn
  cases hg : X.suiteGet id dst with
  | error m => simp only [hg] at hn; cases hn
  | ok eng =>
    simp only [hg] at hn
    by_cases hro : X.isRandomOracle eng = false
    · simp only [hro, if_true] at hn; cases hn
    · simp only [if_neg hro] at hn
      cases hc : curves id with
      | none => simp only [hc] at hn; cases hn
      | some p =>
        simp only [hc] at hn
        cases hp : params.New X p (X.getCurve eng) with
        | error e => simp only [hp] at hn; cases hn
        | ok c =>
          simp only [hp] at hn
          cases hn
          exact ⟨eng, c, rfl, rfl, rfl⟩

/-- The object a successful `New` returns the address of: it has the suite
and the DST passed to `New`, and the engine the library gave for them. -/
theorem New_ok_load (X : Externals) (σ σ1 : Heap X) (id : SuiteID) (dst : Bytes) (h : Ptr)
    (hn : New X σ id dst = .ok (h, σ1)) :
    ∃ hv, σ1.h2c[h]? = some hv ∧ hv.suite = id ∧ hv.dst = dst ∧
      X.suiteGet id dst = .ok hv.HashToPoint := by
  obtain ⟨eng, c, hg, rfl, rfl⟩ := New_ok X σ σ1 id dst h hn
  exact ⟨{ suite := id, HashToPoint := eng, curve := c, dst := dst }, by simp, rfl, rfl, hg⟩

/-- A successful `New` leaves every allocated object as it was. -/
theorem New_frame (X : Externals) (σ σ1 : Heap X) (id : SuiteID) (dst : Bytes) (h : Ptr)
    (hn : New X σ id dst = .ok (h, σ1)) : Heap.preserved σ σ1 := by
  obtain ⟨eng, c, -, rfl, rfl⟩ := New_ok X σ σ1 id dst h hn
  exact ⟨fun q v hq => get_append_of_some _ _ q v hq, fun _ _ hq => hq, fun _ _ hq => hq⟩

/-- Choosing the adapter to hash with leaves every allocated object as it was. -/
theorem adapterFor_frame (X : Externals) (σ σ1 : Heap X) (h htp : Ptr) (dst : Bytes)
    (ha : adapterFor X σ h dst = .ok (htp, σ1)) : Heap.preserved σ σ1 := by
  unfold adapterFor at ha
  cases dst with
  | none => simp only at ha; cases ha; exact preserved_refl σ
  | some d =>
    simp only at ha
    cases hl : load σ.h2c h with
    | error e => simp only [hl] at ha; cases ha
    | ok hv =>
      simp only [hl] at ha
      exact New_frame X σ σ1 _ _ htp ha

/-- The heap `HashToGroup` returns is the one left by the choice of the adapter. -/
theorem HashToGroup_ok (X : Externals) (σ σ2 : Heap X) (h : Ptr) (input dst : Bytes)
    (pt : Point X) (hh : HashToGroup X σ h input dst = .ok (pt, σ2)) :
    adapterFor X σ h dst = .ok (pt.Hash2Curve, σ2) := by
  unfold HashToGroup at hh
  cases ha : adapterFor X σ h dst with
  | error e => simp only [ha] at hh; cases hh
  | ok r =>
    obtain ⟨htp, σ1⟩ := r
    simp only [ha] at hh
    cases hl : load σ1.h2c htp with
    | error e => simp only [hl] at hh; cases hh
    | ok hv =>
      simp only [hl] at hh
      cases hx : X.hash hv.HashToPoint input with
      | error m => simp only [hx] at hh; cases hh
      | ok p => simp only [hx] at hh; cases hh; rfl

/-- The heap `HashToScalar` returns is the one left by the choice of the adapter. -/
theorem HashToScalar_ok (X : Externals) (σ σ2 : Heap X) (h : Ptr) (input dst : Bytes)
    (sc : Scalar X) (hh : HashToScalar X σ h input dst = .ok (sc, σ2)) :
    ∃ htp, adapterFor X σ h dst = .ok (htp, σ2) := by
  unfold HashToScalar at hh
  cases ha : adapterFor X σ h dst with
  | error e => simp only [ha] at hh; cases hh
  | ok r =>
    obtain ⟨htp, σ1⟩ := r
    simp only [ha] at hh
    cases hl : load σ1.h2c htp with
    | error e => simp only [hl] at hh; cases hh
    | ok hv =>
      simp only [hl] at hh
      cases hx : X.hashScalar hv.HashToPoint input with
      | error m => simp only [hx] at hh; cases hh
      | ok p => simp only [hx] at hh; cases hh; exact ⟨htp, rfl⟩

/-- The method `DST` returns the `dst` field of the adapter at the address. -/
theorem DST_of_get (X : Externals) (σ : Heap X) (h : Ptr) (hv : Hash2Curve X)
    (hh : σ.h2c[h]? = some hv) : DST X σ h = .ok (stringOf hv.dst) := by
  simp only [DST, load_of_get _ _ _ hh]

/-- Claim C7. For an adapter `h` bound to suite `hv.suite` and a non-nil `dst`
(empty or not), `h.HashToGroup(input, dst)` is
`New(hv.suite, dst).HashToGroup(input, nil)` and likewise for `HashToScalar`;
with a nil `dst` both hash with the engine of `h` itself, which is the engine
the library gave for the suite and DST `h` was built with. With an override
the outcome is the same for any two adapters of the same suite, whatever DST
they were built with. -/
theorem HashToGroup_override_is_fresh_adapter (X : Externals) (σ : Heap X) (h : Ptr)
    (hv : Hash2Curve X) (input : Bytes) (d : List UInt8) (hh : σ.h2c[h]? = some hv) :
    (HashToGroup X σ h input (some d) =
      match New X σ hv.suite (some d) with
      | .error e => .error e
      | .ok (h1, σ1) => HashToGroup X σ1 h1 input none) ∧
    (HashToScalar X σ h input (some d) =
      match New X σ hv.suite (some d) with
      | .error e => .error e
      | .ok (h1, σ1) => HashToScalar X σ1 h1 input none) ∧
    (HashToGroup X σ h input none =
      match X.hash hv.HashToPoint input with
      | .error msg => .error (.foreign msg)
      | .ok pt => .ok ({ Hash2Curve := h, point := pt }, σ)) ∧
    (HashToScalar X σ h input none =
      match X.hashScalar hv.HashToPoint input with
      | .error msg => .error (.foreign msg)
      | .ok s => .ok ({ s := s, f := X.scalarField hv.HashToPoint }, σ)) ∧
    (∀ (σ0 : Heap X) (s : SuiteID) (d0 : Bytes), New X σ0 s d0 = .ok (h, σ) →
      hv.suite = s ∧ hv.dst = d0 ∧ X.suiteGet s d0 = .ok hv.HashToPoint) ∧
    (∀ (h2 : Ptr) (hv2 : Hash2Curve X), σ.h2c[h2]? = some hv2 → hv2.suite = hv.suite →
      HashToGroup X σ h2 input (some d) = HashToGroup X σ h input (some d) ∧
      HashToScalar X σ h2 input (some d) = HashToScalar X σ h input (some d)) := by
  have hl := load_of_get _ _ _ hh
  refine ⟨?_, ?_, ?_, ?_, ?_, ?_⟩
  · simp only [HashToGroup, adapterFor, hl]
  · simp only [HashToScalar, adapterFor, hl]
  · simp only [HashToGroup, adapterFor, hl]
  · simp only [HashToScalar, adapterFor, hl]
  · intro σ0 s d0 hn
    obtain ⟨hv1, h1, h2, h3, h4⟩ := New_ok_load X σ0 σ s d0 h hn
    rw [hh] at h1
    cases h1
    exact ⟨h2, h3, h4⟩
  · intro h2 hv2 hh2 hs
    have hl2 := load_of_get _ _ _ hh2
    simp only [HashToGroup, HashToScalar, adapterFor, hl, hl2, hs]
    exact ⟨trivial, trivial⟩

/-- Claim C7, on the sample heap: hashing `msg` under the override `other DST`
with the adapter built for `first DST` is hashing with a new adapter built for
`other DST`, and gives the point the sample engine computes from `other DST`
and `msg`. -/
theorem HashToGroup_override_is_fresh_adapter_witness :
    sampleHeap.h2c[0]? = some sampleAdapter ∧
    (HashToGroup sampleExternals sampleHeap 0 (some (lit "msg")) (some (lit "other DST")) =
      match New sampleExternals sampleHeap sampleAdapter.suite (some (lit "other DST")) with
      | .error e => .error e
      | .ok (h1, σ1) => HashToGroup sampleExternals σ1 h1 (some (lit "msg")) none) ∧
    (∃ σ1, HashToGroup sampleExternals sampleHeap 0 (some (lit "msg")) (some (lit "other DST")) =
      .ok ({ Hash2Curve := 1, point := lit "other DSTmsg" }, σ1)) :=
  ⟨rfl,
    (HashToGroup_override_is_fresh_adapter sampleExternals sampleHeap 0 sampleAdapter
      (some (lit "msg")) (lit "other DST") rfl).1,
    ⟨_, rfl⟩⟩

end hash2curve

/-! ## The Ristretto adapter -/

namespace ristretto

/-- The function `New` stores a helper bound to the DST and the hash, and an
adapter that points to it. -/
theorem New_load (X : Externals) (σ : Heap X) (hashID : X.HashIdentifier) (d0 : Bytes) :
    (New X σ hashID d0).2.rist[(New X σ hashID d0).1]? = some { h2r := σ.h2r.length } ∧
    (New X σ hashID d0).2.h2r[σ.h2r.length]? = some { dst := d0, identifier := hashID } := by
  simp [New, h2r.New]

/-- The method `DST` returns the DST of the helper the adapter points to. -/
theorem rist_DST_of_get (X : Externals) (σ : Heap X) (r : Ptr) (rv : Ristretto)
    (hv : HashToRistretto X) (hr : σ.rist[r]? = some rv) (hh : σ.h2r[rv.h2r]? = some hv) :
    DST X σ r = .ok (stringOf hv.dst) := by
  simp only [DST, load_of_get _ _ _ hr, h2r.GetOriginalDST, load_of_get _ _ _ hh]

/-- Choosing the helper to hash with leaves every allocated object as it was. -/
theorem helperFor_frame (X : Externals) (σ σ1 : Heap X) (r h : Ptr) (dst : Bytes)
    (ha : helperFor X σ r dst = .ok (h, σ1)) : Heap.preserved σ σ1 := by
  unfold helperFor at ha
  cases hl : load σ.rist r with
  | error e => simp only [hl] at ha; cases ha
  | ok rv =>
    simp only [hl] at ha
    cases dst with
    | none => simp only at ha; cases ha; exact preserved_refl σ
    | some d =>
      simp only at ha
      cases hi : h2r.Identifier X σ rv.h2r with
      | error e => simp only [hi] at ha; cases ha
      | ok ident =>
        simp only [hi, h2r.New] at ha
        cases ha
        exact ⟨fun _ _ hq => hq, fun q v hq => get_append_of_some _ _ q v hq,
          fun _ _ hq => hq⟩

/-- The method `HashToGroup` leaves every allocated object as it was. -/
theorem rist_HashToGroup_frame (X : Externals) (σ σ2 : Heap X) (r : Ptr) (input dst : Bytes)
    (el : Element X) (hh : HashToGroup X σ r input dst = .ok (el, σ2)) : Heap.preserved σ σ2 := by
  unfold HashToGroup at hh
  cases ha : helperFor X σ r dst with
  | error e => simp only [ha] at hh; cases hh
  | ok p =>
    obtain ⟨h, σ1⟩ := p
    simp only [ha] at hh
    cases he : h2r.Expand X σ1 h input ristrettoInputLength with
    | error e => simp only [he] at hh; cases hh
    | ok u =>
      simp only [he] at hh
      cases hx : X.elementFromUniformBytes u with
      | error m => simp only [hx] at hh; cases hh
      | ok v =>
        simp only [hx] at hh
        cases hh
        exact helperFor_frame X σ _ r h dst ha

/-- The method `HashToScalar` leaves every allocated object as it was. -/
theorem rist_HashToScalar_frame (X : Externals) (σ σ2 : Heap X) (r : Ptr) (input dst : Bytes)
    (sc : Scalar X) (hh : HashToScalar X σ r input dst = .ok (sc, σ2)) : Heap.preserved σ σ2 := by
  unfold HashToScalar at hh
  cases ha : helperFor X σ r dst with
  | error e => simp only [ha] at hh; cases hh
  | ok p =>
    obtain ⟨h, σ1⟩ := p
    simp only [ha] at hh
    cases he : h2r.Expand X σ1 h input ristrettoInputLength with
    | error e => simp only [he] at hh; cases hh
    | ok u =>
      simp only [he] at hh
      cases hx : X.scalarFromUniformBytes u with
      | error m => simp only [hx] at hh; cases hh
      | ok v =>
        simp only [hx] at hh
        cases hh
        exact helperFor_frame X σ _ r h dst ha

end ristretto

/-! ## Both adapters -/

/-- Claim C6. An adapter built by `hash2curve.New(s, d0)` (at address `g`) or
by `ristretto.New(hashID, d0)` answers `DST()` with `d0`; in every later heap
`τ` that preserves the heap left by the constructor it still does, and after
`HashToGroup(input, dst)` or `HashToScalar(input, dst)` on it, with any input
and any `dst` (nil or an override), every object of `τ` is unchanged and
`DST()` still answers `d0`. -/
theorem DST_unchanged_by_hashing (X : Externals) (σ σ1 : Heap X) (s : SuiteID) (g : Ptr)
    (hashID : X.HashIdentifier) (d0 input dst : Bytes)
    (hn : hash2curve.New X σ s d0 = .ok (g, σ1)) :
    (hash2curve.DST X σ1 g = .ok (stringOf d0) ∧
      ∀ τ : Heap X, Heap.preserved σ1 τ →
        hash2curve.DST X τ g = .ok (stringOf d0) ∧
        (∀ (pt : hash2curve.Point X) (τ1 : Heap X),
          hash2curve.HashToGroup X τ g input dst = .ok (pt, τ1) →
            Heap.preserved τ τ1 ∧ hash2curve.DST X τ1 g = .ok (stringOf d0)) ∧
        (∀ (sc : hash2curve.Scalar X) (τ1 : Heap X),
          hash2curve.HashToScalar X τ g input dst = .ok (sc, τ1) →
            Heap.preserved τ τ1 ∧ hash2curve.DST X τ1 g = .ok (stringOf d0))) ∧
    (ristretto.DST X (ristretto.New X σ hashID d0).2 (ristretto.New X σ hashID d0).1 =
        .ok (stringOf d0) ∧
      ∀ τ : Heap X, Heap.preserved (ristretto.New X σ hashID d0).2 τ →
        ristretto.DST X τ (ristretto.New X σ hashID d0).1 = .ok (stringOf d0) ∧
        (∀ (el : ristretto.Element X) (τ1 : Heap X),
          ristretto.HashToGroup X τ (ristretto.New X σ hashID d0).1 input dst = .ok (el, τ1) →
            Heap.preserved τ τ1 ∧
            ristretto.DST X τ1 (ristretto.New X σ hashID d0).1 = .ok (stringOf d0)) ∧
        (∀ (sc : ristretto.Scalar X) (τ1 : Heap X),
          ristretto.HashToScalar X τ (ristretto.New X σ hashID d0).1 input dst = .ok (sc, τ1) →
            Heap.preserved τ τ1 ∧
            ristretto.DST X τ1 (ristretto.New X σ hashID d0).1 = .ok (stringOf d0))) := by
  constructor
  · obtain ⟨hv, hl, -, hd, -⟩ := hash2curve.New_ok_load X σ σ1 s d0 g hn
    have key : ∀ τ : Heap X, Heap.preserved σ1 τ →
        hash2curve.DST X τ g = .ok (stringOf d0) := by
      intro τ hτ
      rw [hash2curve.DST_of_get X τ g hv (hτ.1 g hv hl), hd]
    refine ⟨key σ1 (preserved_refl σ1), fun τ hτ => ⟨key τ hτ, ?_, ?_⟩⟩
    · intro pt τ1 hh
      have hf := hash2curve.adapterFor_frame X τ τ1 g _ dst
        (hash2curve.HashToGroup_ok X τ τ1 g input dst pt hh)
      exact ⟨hf, key τ1 (preserved_trans _ _ _ hτ hf)⟩
    · intro sc τ1 hh
      obtain ⟨htp, ha⟩ := hash2curve.HashToScalar_ok X τ τ1 g input dst sc hh
      have hf := hash2curve.adapterFor_frame X τ τ1 g _ dst ha
      exact ⟨hf, key τ1 (preserved_trans _ _ _ hτ hf)⟩
  · obtain ⟨hr, hh⟩ := ristretto.New_load X σ hashID d0
    have key : ∀ τ : Heap X, Heap.preserved (ristretto.New X σ hashID d0).2 τ →
        ristretto.DST X τ (ristretto.New X σ hashID d0).1 = .ok (stringOf d0) := by
      intro τ hτ
      exact ristretto.rist_DST_of_get X τ _ _ _ (hτ.2.2 _ _ hr) (hτ.2.1 _ _ hh)
    refine ⟨key _ (preserved_refl _), fun τ hτ => ⟨key τ hτ, ?_, ?_⟩⟩
    · intro el τ1 hg
      have hf := ristretto.rist_HashToGroup_frame X τ τ1 _ input dst el hg
      exact ⟨hf, key τ1 (preserved_trans _ _ _ hτ hf)⟩
    · intro sc τ1 hg
      have hf := ristretto.rist_HashToScalar_frame X τ τ1 _ input dst sc hg
      exact ⟨hf, key τ1 (preserved_trans _ _ _ hτ hf)⟩

/-- Claim C6, on the sample externals: `New` for P-256 and `first DST` on the
empty heap returns address 0; `HashToGroup` with the override `other DST`
returns a point of a second adapter, at address 1, whose DST is `other DST`,
and the first adapter still answers `first DST`; the same for the Ristretto
adapter. -/
theorem DST_unchanged_by_hashing_witness :
    hash2curve.New sampleExternals (Heap.empty sampleExternals) H2C.P256_XMDSHA256_SSWU_RO_
      (some (lit "first DST")) = .ok (0, sampleHeapH2C) ∧
    (∃ pt τ1, hash2curve.HashToGroup sampleExternals sampleHeapH2C 0 (some (lit "msg"))
        (some (lit "other DST")) = .ok (pt, τ1) ∧
      hash2curve.DST sampleExternals τ1 pt.Hash2Curve = .ok (lit "other DST") ∧
      hash2curve.DST sampleExternals τ1 0 = .ok (lit "first DST")) ∧
    (∃ el τ1, ristretto.HashToGroup sampleExternals
        (ristretto.New sampleExternals (Heap.empty sampleExternals) sampleExternals.SHA512
          (some (lit "first DST"))).2 0 (some (lit "msg")) (some (lit "other DST")) =
          .ok (el, τ1) ∧
      ristretto.DST sampleExternals τ1 0 = .ok (lit "first DST")) :=
  have h := DST_unchanged_by_hashing sampleExternals (Heap.empty sampleExternals) sampleHeapH2C
    H2C.P256_XMDSHA256_SSWU_RO_ 0 sampleExternals.SHA512 (some (lit "first DST"))
    (some (lit "msg")) (some (lit "other DST")) rfl
  ⟨rfl,
    ⟨_, _, rfl, rfl, ((h.1.2 sampleHeapH2C (preserved_refl _)).2.1 _ _ rfl).2⟩,
    ⟨_, _, rfl, ((h.2.2 _ (preserved_refl _)).2.1 _ _ rfl).2⟩⟩

/-! ## `MultBytes` -/

/-- A failed `Scalar.Decode` of the hash-to-curve adapter returns a decode error. -/
theorem h2c_Scalar_Decode_error (X : Externals) (s0 : hash2curve.Scalar X) (input : Bytes)
    (err : GoError) (h : hash2curve.Scalar.Decode X s0 input = .error err) :
    ∃ why, err = .decode why := by
  unfold hash2curve.Scalar.Decode at h
  split at h
  · cases h; exact ⟨_, rfl⟩
  · split at h
    · cases h; exact ⟨_, rfl⟩
    · cases h

/-- A failed `Scalar.Decode` of the Ristretto adapter returns a decode error. -/
theorem rist_Scalar_Decode_error (X : Externals) (s0 : ristretto.Scalar X) (input : Bytes)
    (err : GoError) (h : ristretto.Scalar.Decode X s0 input = .error err) :
    ∃ why, err = .decode why := by
  unfold ristretto.Scalar.Decode at h
  split at h
  · cases h; exact ⟨_, rfl⟩
  · split at h
    · cases h; exact ⟨_, rfl⟩
    · cases h

/-- Claim C8. For an allocated hash-to-curve adapter `h` and an allocated
Ristretto adapter `r`, and all byte strings `s` and `e`: `MultBytes(s, e)`
returns (it does not panic); if decoding `s` fails it returns `(nil, err)` with
the error of that decoding, whatever `e` is; otherwise, if decoding `e` fails,
`(nil, err)` with the error of that decoding; and when both succeed
`(E.Mult(S), nil)`. An `e` one byte short of `ElementLength()` fails to decode
with a decode error, and `MultBytes` then returns `(nil, err)` for a decode
error `err`. -/
theorem MultBytes_decode_errors_or_product (X : Externals) (σ : Heap X) (h r : Ptr)
    (hv : hash2curve.Hash2Curve X) (rv : ristretto.Ristretto) (s e : Bytes)
    (hh : σ.h2c[h]? = some hv) (hr : σ.rist[r]? = some rv) :
    ((∃ res, hash2curve.MultBytes X σ h s e = .ok res) ∧
      ∃ s0 e0 n, hash2curve.NewScalar X σ h = .ok s0 ∧ hash2curve.NewElement X σ h = .ok e0 ∧
        hash2curve.ElementLength X σ h = .ok n ∧
        (∃ d, hash2curve.Point.Decode X σ e0 e = .ok d) ∧
        (∀ err, hash2curve.Scalar.Decode X s0 s = .error err →
          ∀ e1, hash2curve.MultBytes X σ h s e1 = .ok (none, some err)) ∧
        (∀ S err, hash2curve.Scalar.Decode X s0 s = .ok S →
          hash2curve.Point.Decode X σ e0 e = .ok (.error err) →
          hash2curve.MultBytes X σ h s e = .ok (none, some err)) ∧
        (∀ S E, hash2curve.Scalar.Decode X s0 s = .ok S →
          hash2curve.Point.Decode X σ e0 e = .ok (.ok E) →
          hash2curve.MultBytes X σ h s e = .ok (some (hash2curve.Point.Mult X E S), none)) ∧
        (lenOf e + 1 = n →
          hash2curve.Point.Decode X σ e0 e = .ok (.error (.decode .wrongLength)) ∧
          ∃ why, hash2curve.MultBytes X σ h s e = .ok (none, some (.decode why)))) ∧
    ((∃ res, ristretto.MultBytes X σ r s e = .ok res) ∧
      ∃ e0, ristretto.NewElement X σ r = .ok e0 ∧
        (∀ err, ristretto.Scalar.Decode X (ristretto.NewScalar X) s = .error err →
          ∀ e1, ristretto.MultBytes X σ r s e1 = .ok (none, some err)) ∧
        (∀ S err, ristretto.Scalar.Decode X (ristretto.NewScalar X) s = .ok S →
          ristretto.Element.Decode X e0 e = .error err →
          ristretto.MultBytes X σ r s e = .ok (none, some err)) ∧
        (∀ S E, ristretto.Scalar.Decode X (ristretto.NewScalar X) s = .ok S →
          ristretto.Element.Decode X e0 e = .ok E →
          ristretto.MultBytes X σ r s e = .ok (some (ristretto.Element.Mult X E S), none)) ∧
        (lenOf e + 1 = ristretto.ElementLength →
          ristretto.Element.Decode X e0 e = .error (.decode .wrongLength) ∧
          ∃ why, ristretto.MultBytes X σ r s e = .ok (none, some (.decode why)))) := by
  constructor
  · have hl := load_of_get _ _ _ hh
    have hs : hash2curve.NewScalar X σ h =
        .ok (hash2curve.scalar X (X.scalarField hv.HashToPoint)) := by
      simp only [hash2curve.NewScalar, hl]
    have he : hash2curve.NewElement X σ h = .ok { Hash2Curve := h, point := hv.curve.base } := by
      simp only [hash2curve.NewElement, hl]
    have hn : hash2curve.ElementLength X σ h =
        .ok (hash2curve.pointLen (X.fieldBitLen (X.getCurve hv.HashToPoint))) := by
      simp only [hash2curve.ElementLength, hl]
    have hd : ∃ d, hash2curve.Point.Decode X σ { Hash2Curve := h, point := hv.curve.base } e =
        .ok d := by
      simp only [hash2curve.Point.Decode, hl]
      split
      · exact ⟨_, rfl⟩
      · split <;> exact ⟨_, rfl⟩
    have h1 : ∀ err,
        hash2curve.Scalar.Decode X (hash2curve.scalar X (X.scalarField hv.HashToPoint)) s =
          .error err →
        ∀ e1, hash2curve.MultBytes X σ h s e1 = .ok (none, some err) := by
      intro err hs1 e1
      simp only [hash2curve.MultBytes, hs, hs1]
    have h2 : ∀ S err,
        hash2curve.Scalar.Decode X (hash2curve.scalar X (X.scalarField hv.HashToPoint)) s =
          .ok S →
        hash2curve.Point.Decode X σ { Hash2Curve := h, point := hv.curve.base } e =
          .ok (.error err) →
        hash2curve.MultBytes X σ h s e = .ok (none, some err) := by
      intro S err hs1 he1
      simp only [hash2curve.MultBytes, hs, hs1, he, he1]
    have h3 : ∀ S E,
        hash2curve.Scalar.Decode X (hash2curve.scalar X (X.scalarField hv.HashToPoint)) s =
          .ok S →
        hash2curve.Point.Decode X σ { Hash2Curve := h, point := hv.curve.base } e =
          .ok (.ok E) →
        hash2curve.MultBytes X σ h s e = .ok (some (hash2curve.Point.Mult X E S), none) := by
      intro S E hs1 he1
      simp only [hash2curve.MultBytes, hs, hs1, he, he1]
    have h4 : lenOf e + 1 = hash2curve.pointLen (X.fieldBitLen (X.getCurve hv.HashToPoint)) →
        hash2curve.Point.Decode X σ { Hash2Curve := h, point := hv.curve.base } e =
          .ok (.error (.decode .wrongLength)) := by
      intro hlen
      have hne : lenOf e ≠ hash2curve.pointLen (X.fieldBitLen (X.getCurve hv.HashToPoint)) := by
        omega
      simp only [hash2curve.Point.Decode, hl, hne, ne_eq, not_false_eq_true, if_true]
    refine ⟨?_, _, _, _, hs, he, hn, hd, h1, h2, h3, ?_⟩
    · cases hs1 :
          hash2curve.Scalar.Decode X (hash2curve.scalar X (X.scalarField hv.HashToPoint)) s with
      | error err => exact ⟨_, h1 _ hs1 e⟩
      | ok S =>
        obtain ⟨d, hd1⟩ := hd
        cases d with
        | error err => exact ⟨_, h2 S err hs1 hd1⟩
        | ok E => exact ⟨_, h3 S E hs1 hd1⟩
    · intro hlen
      refine ⟨h4 hlen, ?_⟩
      cases hs1 :
          hash2curve.Scalar.Decode X (hash2curve.scalar X (X.scalarField hv.HashToPoint)) s with
      | error err =>
        obtain ⟨why, rfl⟩ := h2c_Scalar_Decode_error X _ s err hs1
        exact ⟨why, h1 _ hs1 e⟩
      | ok S => exact ⟨_, h2 S _ hs1 (h4 hlen)⟩
  · have hl := load_of_get _ _ _ hr
    have he : ristretto.NewElement X σ r =
        .ok { HashToRistretto := rv.h2r, element := X.ristNewElement } := by
      simp only [ristretto.NewElement, hl]
    have h1 : ∀ err, ristretto.Scalar.Decode X (ristretto.NewScalar X) s = .error err →
        ∀ e1, ristretto.MultBytes X σ r s e1 = .ok (none, some err) := by
      intro err hs1 e1
      simp only [ristretto.MultBytes, hs1]
    have h2 : ∀ S err, ristretto.Scalar.Decode X (ristretto.NewScalar X) s = .ok S →
        ristretto.Element.Decode X { HashToRistretto := rv.h2r, element := X.ristNewElement } e =
          .error err →
        ristretto.MultBytes X σ r s e = .ok (none, some err) := by
      intro S err hs1 he1
      simp only [ristretto.MultBytes, hs1, he, he1]
    have h3 : ∀ S E, ristretto.Scalar.Decode X (ristretto.NewScalar X) s = .ok S →
        ristretto.Element.Decode X { HashToRistretto := rv.h2r, element := X.ristNewElement } e =
          .ok E →
        ristretto.MultBytes X σ r s e = .ok (some (ristretto.Element.Mult X E S), none) := by
      intro S E hs1 he1
      simp only [ristretto.MultBytes, hs1, he, he1]
    have h4 : lenOf e + 1 = ristretto.ElementLength →
        ristretto.Element.Decode X { HashToRistretto := rv.h2r, element := X.ristNewElement } e =
          .error (.decode .wrongLength) := by
      intro hlen
      have hne : lenOf e ≠ ristretto.ElementLength := by omega
      simp only [ristretto.Element.Decode, hne, ne_eq, not_false_eq_true, if_true]
    refine ⟨?_, _, he, h1, h2, h3, ?_⟩
    · cases hs1 : ristretto.Scalar.Decode X (ristretto.NewScalar X) s with
      | error err => exact ⟨_, h1 _ hs1 e⟩
      | ok S =>
        cases hd1 : ristretto.Element.Decode X
            { HashToRistretto := rv.h2r, element := X.ristNewElement } e with
        | error err => exact ⟨_, h2 S err hs1 hd1⟩
        | ok E => exact ⟨_, h3 S E hs1 hd1⟩
    · intro hlen
      refine ⟨h4 hlen, ?_⟩
      cases hs1 : ristretto.Scalar.Decode X (ristretto.NewScalar X) s with
      | error err =>
        obtain ⟨why, rfl⟩ := rist_Scalar_Decode_error X _ s err hs1
        exact ⟨why, h1 _ hs1 e⟩
      | ok S => exact ⟨_, h2 S _ hs1 (h4 hlen)⟩

/-- Claim C8, on the sample heap: both adapters are allocated at address 0,
and `MultBytes` of the two-byte scalar `[1, 2]` and the one-byte element `[3]`
(one byte short of the element length 2 of the sample curve) returns a value
on both. On the hash-to-curve adapter the value is the wrong-length decode
error for the element; a well-formed pair gives the product. -/
theorem MultBytes_decode_errors_or_product_witness :
    sampleHeap.h2c[0]? = some sampleAdapter ∧ sampleHeap.rist[0]? = some { h2r := 0 } ∧
    ((∃ res, hash2curve.MultBytes sampleExternals sampleHeap 0 (some [1, 2]) (some [3]) =
        .ok res) ∧
      (∃ res, ristretto.MultBytes sampleExternals sampleHeap 0 (some [1, 2]) (some [3]) =
        .ok res)) ∧
    hash2curve.ElementLength sampleExternals sampleHeap 0 = .ok 2 ∧
    hash2curve.MultBytes sampleExternals sampleHeap 0 (some [1, 2]) (some [3]) =
      .ok (none, some (.decode .wrongLength)) ∧
    hash2curve.MultBytes sampleExternals sampleHeap 0 (some [1, 2]) (some [3, 4]) =
      .ok (some { Hash2Curve := 0, point := [3, 4, 1, 2] }, none) ∧
    hash2curve.MultBytes sampleExternals sampleHeap 0 (some [0, 0]) (some [3, 4]) =
      .ok (none, some (.decode (.invalid (lit "zero scalar")))) :=
  have h := MultBytes_decode_errors_or_product sampleExternals sampleHeap 0 0 sampleAdapter
    { h2r := 0 } (some [1, 2]) (some [3]) rfl rfl
  ⟨rfl, rfl, ⟨h.1.1, h.2.1⟩, rfl, rfl, rfl, rfl⟩

end Cryptotools
